import Mathlib

/-!
Shallow embedding of the Student Tracker data store and spreadsheet import
pipeline (source: src/main.py).

Modelling conventions:
- Spreadsheet cell values read by pandas are modelled by `PCell`: `nan` is the
  missing-cell placeholder (pandas NaN / Python None), `str` a text cell, and
  `int` an integer cell.  `PCell.pyStr` is Python `str(...)` on such a value;
  in particular `str(nan) = "nan"`.
- SQLite REAL scores, averages and progress fractions are modelled by `ℚ`
  (all values appearing in the claims are exact in `ℚ`).
- Timestamps (`CURRENT_TIMESTAMP`) are an external input: write operations
  take the current time `t : Nat` as a parameter.
- The SQLite connections opened by the source never execute
  `PRAGMA foreign_keys = ON`; SQLite leaves foreign-key enforcement OFF by
  default on every fresh connection, so the `ON DELETE CASCADE` clauses
  declared by `init_database` are inert.  `deleteStudent` therefore removes
  rows from `students` only, exactly like `DELETE FROM students WHERE id = ?`
  does on such a connection.
- `INSERT OR REPLACE INTO students` deletes the row conflicting on the
  UNIQUE `matricule` column and inserts a brand-new row: a fresh surrogate id
  (AUTOINCREMENT) and fresh `created_at`/`updated_at` defaults.
- SQLite `LIMIT ? OFFSET ?` treats a negative OFFSET as zero; `Int.toNat`
  models that clamping in `getStudentsPaginated`.
-/

namespace STrack

/-- A spreadsheet cell value as surfaced by pandas. -/
inductive PCell where
  | nan : PCell
  | str : String → PCell
  | int : Int → PCell
deriving DecidableEq, Repr

/-- Python `str(...)` applied to a cell value; `str(float("nan")) = "nan"`. -/
def PCell.pyStr : PCell → String
  | .nan => "nan"
  | .str s => s
  | .int n => toString n

/-- `pd.isna` on a cell value. -/
def PCell.isna : PCell → Bool
  | .nan => true
  | _ => false

namespace Config

def POSSIBLE_SHEET_NAMES : List String := ["note", "noteDataTable1", "Sheet1", "Feuil1", "notes"]

def REQUIRED_COLUMNS : List String := ["Matricule", "Nom", "Prénom"]

def STUDENTS_PER_PAGE : Nat := 50

def MATRICULE_LENGTH : Nat := 12

def MIN_SCORE : ℚ := 0

def MAX_SCORE : ℚ := 20

end Config

/-- Python `str.strip()`: drop leading and trailing whitespace. -/
def pyStrip (s : String) : String :=
  ⟨((s.data.dropWhile Char.isWhitespace).reverse.dropWhile Char.isWhitespace).reverse⟩

/-- `validate_matricule` from src/main.py: non-empty, exactly 12 characters
after trimming, all decimal digits. -/
def validate_matricule (matricule : String) : Bool × String :=
  if matricule = "" then (false, "Matricule cannot be empty")
  else
    let m := pyStrip matricule
    if m.length ≠ Config.MATRICULE_LENGTH then
      (false, "Matricule must be " ++ toString Config.MATRICULE_LENGTH ++ " characters")
    else if ¬ (m.toList.all Char.isDigit) then
      (false, "Matricule must contain only numbers")
    else (true, "")

/-- A Python value passed to `validate_score`. `other` stands for any
argument that is neither `None`, a string, nor a number (list, dict, ...). -/
inductive PyVal where
  | none : PyVal
  | str : String → PyVal
  | int : Int → PyVal
  | float : ℚ → PyVal
  | other : String → PyVal
deriving DecidableEq, Repr

/-- The exceptions `float(...)` can raise. -/
inductive PyErr where
  | valueError : PyErr
  | typeError : PyErr
deriving DecidableEq, Repr

/-- Value of a run of decimal digit characters. -/
def digitsToNat (ds : List Char) : Nat :=
  ds.foldl (fun a c => a * 10 + (c.toNat - 48)) 0

/-- A model of numeric-string parsing as done by Python `float(s)`:
optional sign, then digits with an optional fractional part. -/
def parseFloatQ (s : String) : Option ℚ :=
  let t := (pyStrip s).toList
  let signed : ℚ × List Char :=
    match t with
    | '-' :: r => (-1, r)
    | '+' :: r => (1, r)
    | r => (1, r)
  let intPart := signed.2.takeWhile Char.isDigit
  let rest := signed.2.dropWhile Char.isDigit
  match rest with
  | [] => if intPart = [] then none else some (signed.1 * digitsToNat intPart)
  | '.' :: frac =>
    if frac.all Char.isDigit ∧ (intPart ≠ [] ∨ frac ≠ []) then
      some (signed.1 * ((digitsToNat intPart : ℚ) + (digitsToNat frac : ℚ) / (10 : ℚ) ^ frac.length))
    else none
  | _ => none

/-- Python `float(x)`: numbers convert, strings parse or raise `ValueError`,
anything else raises `TypeError`. -/
def pyFloat : PyVal → Except PyErr ℚ
  | .str s =>
    match parseFloatQ s with
    | some q => .ok q
    | none => .error .valueError
  | .int n => .ok (n : ℚ)
  | .float q => .ok q
  | .none => .error .typeError
  | .other _ => .error .typeError

/-- `validate_score` from src/main.py.  Only `ValueError` is caught by the
`try` block, so a `TypeError` raised by `float(score)` escapes the function:
the result is `Except`, with `.error .typeError` meaning an uncaught
exception. -/
def validate_score (score : PyVal) : Except PyErr (Bool × String) :=
  if score = .none ∨ score = .str "" then .ok (true, "")
  else
    match pyFloat score with
    | .ok q =>
      if q < Config.MIN_SCORE ∨ q > Config.MAX_SCORE then
        .ok (false, "Score must be between 0 and 20")
      else .ok (true, "")
    | .error .valueError => .ok (false, "Score must be a number")
    | .error e => .error e

/-! ## The relational store -/

/-- A row of the `students` table. -/
structure Student where
  sid : Nat
  matricule : String
  nom : String
  prenom : String
  sect : String
  groupe : String
  createdAt : Nat
  updatedAt : Nat
deriving DecidableEq, Repr

/-- The CHECK-constrained `status` column of `attendance`. -/
inductive AttStatus where
  | present : AttStatus
  | absent : AttStatus
  | absentJustifie : AttStatus
deriving DecidableEq, Repr

/-- A row of the `attendance` table. -/
structure AttRow where
  aid : Nat
  studentId : Nat
  classId : Nat
  status : AttStatus
deriving DecidableEq, Repr

/-- A row of the `marks` table (`score` is nullable). -/
structure MarkRow where
  mid : Nat
  studentId : Nat
  classId : Nat
  score : Option ℚ
deriving DecidableEq, Repr

/-- A row of the `comments` table. -/
structure CommentRow where
  cid : Nat
  studentId : Nat
  classId : Nat
  comment : String
deriving DecidableEq, Repr

/-- The store state: the four tables relevant to the claims plus the
AUTOINCREMENT counter for `students.id`. -/
structure DB where
  students : List Student
  attendance : List AttRow
  marks : List MarkRow
  comments : List CommentRow
  nextId : Nat
deriving DecidableEq, Repr

def emptyDB : DB := ⟨[], [], [], [], 1⟩

/-- `INSERT OR REPLACE INTO students (matricule, nom, prenom, section,
groupe, updated_at) VALUES (?, ?, ?, ?, ?, CURRENT_TIMESTAMP)`:
the row conflicting on UNIQUE `matricule` (if any) is deleted and a fresh row
is inserted with a new AUTOINCREMENT id and default `created_at`. -/
def upsertStudent (db : DB) (matricule nom prenom sect groupe : String) (t : Nat) : DB :=
  { db with
    students := db.students.filter (fun s => s.matricule ≠ matricule) ++
      [{ sid := db.nextId, matricule := matricule, nom := nom, prenom := prenom,
         sect := sect, groupe := groupe, createdAt := t, updatedAt := t }],
    nextId := db.nextId + 1 }

/-- `delete_student`: `DELETE FROM students WHERE id = ?` on a connection with
SQLite foreign-key enforcement at its default (OFF), so the declared
`ON DELETE CASCADE` clauses do not fire and the child tables are untouched. -/
def deleteStudent (db : DB) (sid : Nat) : DB :=
  { db with students := db.students.filter (fun s => s.sid ≠ sid) }

/-! ## Query layer -/

/-- Strict lexicographic order on character lists by code point; for UTF-8
encoded text this coincides with the byte-wise memcmp order SQLite uses for
its default BINARY collation. -/
def charListLt : List Char → List Char → Bool
  | [], [] => false
  | [], _ :: _ => true
  | _ :: _, [] => false
  | a :: as, b :: bs =>
    if a.toNat < b.toNat then true
    else if b.toNat < a.toNat then false
    else charListLt as bs

def sqliteStrLt (a b : String) : Bool :=
  charListLt a.data b.data

def sqliteStrLe (a b : String) : Bool :=
  ! charListLt b.data a.data

/-- `ORDER BY nom, prenom` under the BINARY collation. -/
def nameOrder (a b : Student) : Prop :=
  sqliteStrLt a.nom b.nom = true ∨ (a.nom = b.nom ∧ sqliteStrLe a.prenom b.prenom = true)

instance : DecidableRel nameOrder := fun _ _ =>
  inferInstanceAs (Decidable (_ ∨ _))

/-- Result of `get_students_paginated`. -/
structure PageResult where
  students : List Student
  page : Int
  totalPages : Nat
  totalCount : Nat
deriving DecidableEq, Repr

/-- `get_students_paginated`: `LIMIT per_page OFFSET (page-1)*per_page` over
the group members ordered by name; `total_pages = (total_count + per_page - 1)
// per_page`.  A zero `per_page` makes the Python `//` raise
`ZeroDivisionError`, which the surrounding `except` turns into
`([], 1, 1, 0)`.  SQLite treats a negative OFFSET as zero (`Int.toNat`). -/
def getStudentsPaginated (db : DB) (groupe : String) (page : Int) (perPage : Nat) : PageResult :=
  if perPage = 0 then ⟨[], 1, 1, 0⟩
  else
    let all := List.insertionSort nameOrder (db.students.filter (fun s => s.groupe = groupe))
    let totalCount := all.length
    let offset : Int := (page - 1) * perPage
    ⟨(all.drop offset.toNat).take perPage, page, (totalCount + perPage - 1) / perPage, totalCount⟩

/-- Round half to even (Python `round`), as an integer. -/
def rndHalfEven (q : ℚ) : ℤ :=
  let n := ⌊q⌋
  let f := q - n
  if f < 1 / 2 then n
  else if 1 / 2 < f then n + 1
  else if n % 2 = 0 then n else n + 1

/-- Python `round(q, d)`. -/
def roundq (d : Nat) (q : ℚ) : ℚ :=
  (rndHalfEven (q * (10 : ℚ) ^ d) : ℚ) / (10 : ℚ) ^ d

/-- The dictionary returned by `get_student_stats`. -/
structure StudentStats where
  student : Student
  totalMarks : Nat
  avgScore : ℚ
  maxScore : ℚ
  minScore : ℚ
  totalClasses : Nat
  presentCount : Nat
  attendanceRate : ℚ
  attendanceDist : List (AttStatus × Nat)
deriving DecidableEq, Repr

/-- The `GROUP BY status` result: one `(status, count)` entry per status that
actually occurs for the student. -/
def attendanceDistOf (db : DB) (sid : Nat) : List (AttStatus × Nat) :=
  ([AttStatus.present, AttStatus.absent, AttStatus.absentJustifie].map
    (fun st => (st, (db.attendance.filter (fun a => a.studentId = sid ∧ a.status = st)).length))).filter
    (fun p => p.2 ≠ 0)

/-- `get_student_stats` from src/main.py.  `None` (the student id does not
exist) is `none`.  The marks aggregate runs over scores with
`score IS NOT NULL`; `AVG`/`MAX`/`MIN` of an empty set are SQL NULL, turned
into `0` by the `or 0` / truthiness tests; a truthy (nonzero) average is
rounded to 2 decimal places; the attendance rate is rounded to 1 decimal
place. -/
def getStudentStats (db : DB) (sid : Nat) : Option StudentStats :=
  match db.students.find? (fun s => s.sid = sid) with
  | none => none
  | some st =>
    let scores := db.marks.filterMap (fun m => if m.studentId = sid then m.score else none)
    let avgScore : ℚ :=
      if scores.isEmpty then 0
      else
        let a := scores.sum / (scores.length : ℚ)
        if a = 0 then 0 else roundq 2 a
    let dist := attendanceDistOf db sid
    let totalAttendance : Nat := (dist.map (fun p => p.2)).sum
    let presentCount : Nat := ((dist.find? (fun p => p.1 = AttStatus.present)).map (fun p => p.2)).getD 0
    let attendanceRate : ℚ :=
      if 0 < totalAttendance then (presentCount : ℚ) / (totalAttendance : ℚ) * 100 else 0
    some
      { student := st
        totalMarks := scores.length
        avgScore := avgScore
        maxScore := (scores.max?).getD 0
        minScore := (scores.min?).getD 0
        totalClasses := totalAttendance
        presentCount := presentCount
        attendanceRate := roundq 1 attendanceRate
        attendanceDist := dist }

/-! ## Content view of a student row (spec side) -/

/-- The persistent field values of a student row, timestamps and surrogate id
excluded. -/
structure SContent where
  matricule : String
  nom : String
  prenom : String
  sect : String
  groupe : String
deriving DecidableEq, Repr

def Student.content (s : Student) : SContent :=
  ⟨s.matricule, s.nom, s.prenom, s.sect, s.groupe⟩

def contentOf (db : DB) : List SContent :=
  db.students.map Student.content

/-! ## Spreadsheet import pipeline -/

/-- Does `needle` start somewhere in `hay`? (Python `needle in hay`.) -/
def hasPrefixFrom (needle : List Char) : List Char → Bool
  | [] => needle.isPrefixOf []
  | c :: cs => needle.isPrefixOf (c :: cs) || hasPrefixFrom needle cs

def containsSubstr (hay needle : String) : Bool :=
  hasPrefixFrom needle.toList hay.toList

/-- `isinstance(cell, str) and "Matricule" in cell`. -/
def cellHasMarker : PCell → Bool
  | .str s => containsSubstr s "Matricule"
  | _ => false

def findHeaderAux : List (List PCell) → Nat → Option (Nat × Nat)
  | [], _ => none
  | r :: rs, i =>
    match r.findIdx? cellHasMarker with
    | some j => some (i, j)
    | none => findHeaderAux rs (i + 1)

/-- The header scan of `import_from_excel`: the first row (top-to-bottom)
holding a cell (left-to-right) whose text contains `"Matricule"`, together
with that cell's column index.  Note the scan input is the pandas dataframe,
whose rows exclude the first sheet row (consumed as the initial header by
`pd.read_excel`). -/
def findHeader (rows : List (List PCell)) : Option (Nat × Nat) :=
  findHeaderAux rows 0

/-- `row.get(key)` after `df.columns` was rebound to the detected header row:
`none` when the label is absent; a label present but beyond the row's cells
reads the pandas NaN padding. -/
def getByLabel (cols row : List PCell) (key : String) : Option PCell :=
  match cols.findIdx? (fun c => c = PCell.str key) with
  | none => none
  | some i => some (row.getD i PCell.nan)

/-- `str(row.get(key, ""))`: the default `""` when the label is absent,
otherwise Python `str` of the cell — so a NaN cell reads as `"nan"`. -/
def getByLabelD (cols row : List PCell) (key : String) : String :=
  match getByLabel cols row key with
  | none => ""
  | some c => c.pyStr

/-- `if groupe_name: groupe = groupe_name` — the override applies when the
argument is truthy (not `None` and not the empty string). -/
def applyOverride (g : Option String) (s : String) : String :=
  match g with
  | some gn => if gn = "" then s else gn
  | none => s

/-- The per-row outcome of the ingestion loop, content only: `none` when the
row is skipped (blank identifier) or fails identifier validation, `some`
with the upserted field values otherwise. -/
def rowOp (cols : List PCell) (g : Option String) (row : List PCell) : Option SContent :=
  match getByLabel cols row "Matricule" with
  | none => none
  | some c =>
    if c.isna then none
    else
      let matricule := pyStrip c.pyStr
      if (validate_matricule matricule).1 = false then none
      else
        some ⟨matricule, pyStrip (getByLabelD cols row "Nom"), pyStrip (getByLabelD cols row "Prénom"),
          pyStrip (getByLabelD cols row "Section"),
          applyOverride g (pyStrip (getByLabelD cols row "Groupe"))⟩

/-- Is the row one that lands in the per-row `errors` list (identifier
present and non-blank but failing validation)? -/
def rowInvalid (cols : List PCell) (row : List PCell) : Bool :=
  match getByLabel cols row "Matricule" with
  | none => false
  | some c =>
    if c.isna then false
    else (validate_matricule (pyStrip c.pyStr)).1 = false

/-- Accumulator of the ingestion loop. -/
structure LoopSt where
  db : DB
  imported : Nat
  errors : List String
  trace : List ℚ
deriving DecidableEq, Repr

/-- One iteration of the `for idx, row in df.iterrows()` body: skip blank
identifiers, record a per-row error on validation failure and continue,
otherwise extract the trimmed fields, apply the group override, upsert, and
(on every 10th index, with a progress sink attached) report
`0.2 + 0.7 * idx / total`. -/
def procRow (cols : List PCell) (g : Option String) (hasSink : Bool) (total t : Nat)
    (st : LoopSt) (idx : Nat) (row : List PCell) : LoopSt :=
  match getByLabel cols row "Matricule" with
  | none => st
  | some c =>
    if c.isna then st
    else
      let matricule := pyStrip c.pyStr
      let v := validate_matricule matricule
      if v.1 = false then
        { st with errors := st.errors ++ ["Row " ++ toString (idx + 1) ++ ": " ++ v.2] }
      else
        let nom := pyStrip (getByLabelD cols row "Nom")
        let prenom := pyStrip (getByLabelD cols row "Prénom")
        let sect := pyStrip (getByLabelD cols row "Section")
        let groupe := applyOverride g (pyStrip (getByLabelD cols row "Groupe"))
        { db := upsertStudent st.db matricule nom prenom sect groupe t
          imported := st.imported + 1
          errors := st.errors
          trace :=
            if hasSink ∧ idx % 10 = 0 then
              st.trace ++ [2 / 10 + 7 / 10 * ((idx : ℚ) / (total : ℚ))]
            else st.trace }

/-- The ingestion loop over the data rows. -/
def runRows (cols : List PCell) (g : Option String) (hasSink : Bool) (total t : Nat) :
    List (List PCell) → Nat → LoopSt → LoopSt
  | [], _, st => st
  | r :: rs, idx, st => runRows cols g hasSink total t rs (idx + 1) (procRow cols g hasSink total t st idx r)

/-- Result of `import_from_excel`: success flag, message, imported count,
the store afterwards, the sequence of fractions passed to the progress sink,
and the per-row error list. -/
structure ImportResult where
  ok : Bool
  message : String
  count : Nat
  db : DB
  trace : List ℚ
  errors : List String
deriving DecidableEq, Repr

/-- The import of one selected sheet.  `pd.read_excel` consumes the first
sheet row as the provisional pandas header, so the marker scan and all later
processing see `sheet.tail` only.  On header detection the sink receives 0.1
before the scan and 0.2 after the required-column check; the header row's
cells become the column labels and the rows above and including it are
discarded. -/
def importSheet (sheet : List (List PCell)) (g : Option String) (hasSink : Bool) (t : Nat)
    (db : DB) : ImportResult :=
  let dfRows := sheet.tail
  let trace1 : List ℚ := if hasSink then [1 / 10] else []
  match findHeader dfRows with
  | none =>
    { ok := false, message := "Could not find Matricule column", count := 0, db := db,
      trace := trace1, errors := [] }
  | some (hidx, _) =>
    let cols := dfRows.getD hidx []
    let rows := dfRows.drop (hidx + 1)
    let missing := Config.REQUIRED_COLUMNS.filter (fun c => ¬ cols.contains (PCell.str c))
    if missing ≠ [] then
      { ok := false, message := "Missing required columns: " ++ String.intercalate ", " missing,
        count := 0, db := db, trace := trace1, errors := [] }
    else
      let trace2 := trace1 ++ (if hasSink then [2 / 10] else [])
      let st := runRows cols g hasSink rows.length t rows 0 ⟨db, 0, [], trace2⟩
      { ok := true
        message := "Successfully imported " ++ toString st.imported ++ " students" ++
          (if st.errors ≠ [] then "\nWarnings: " ++ toString st.errors.length ++ " rows skipped"
           else "")
        count := st.imported
        db := st.db
        trace := st.trace ++ (if hasSink then [1] else [])
        errors := st.errors }

/-- Sheet selection: the first name of the preference list present among the
workbook's sheets, else the workbook's first sheet. -/
def selectSheetName (names : List String) : Option String :=
  match Config.POSSIBLE_SHEET_NAMES.find? (fun n => names.contains n) with
  | some n => some n
  | none => names.head?

/-- The sheet `import_from_excel` operates on, if any. -/
def sheetOf (wb : List (String × List (List PCell))) : Option (List (List PCell)) :=
  match selectSheetName (wb.map Prod.fst) with
  | none => none
  | some name => ((wb.find? (fun p => p.1 = name)).map Prod.snd)

/-- `import_from_excel` over a workbook (named sheets).  A workbook with no
sheet at all fails at load time: the surrounding `except` returns
`(False, error message, 0)` without touching the store or the sink. -/
def importFromExcel (wb : List (String × List (List PCell))) (g : Option String)
    (hasSink : Bool) (t : Nat) (db : DB) : ImportResult :=
  match sheetOf wb with
  | none =>
    { ok := false, message := "Import error: no sheet", count := 0, db := db, trace := [],
      errors := [] }
  | some sheet => importSheet sheet g hasSink t db

/-! ## Content-level view of the import (spec side) -/

/-- Content-level upsert: drop the row with the same matricule, append. -/
def upsertC (c : List SContent) (v : SContent) : List SContent :=
  c.filter (fun r => r.matricule ≠ v.matricule) ++ [v]

def applyOps (ops : List SContent) (c : List SContent) : List SContent :=
  ops.foldl upsertC c

def keyMem (ops : List SContent) (m : String) : Bool :=
  ops.any (fun v => v.matricule = m)

/-- Deduplicate keeping the last occurrence of each matricule, in order of
last occurrence. -/
def canonOps : List SContent → List SContent
  | [] => []
  | v :: t => if keyMem t v.matricule then canonOps t else v :: canonOps t

/-- All content-level upserts performed by one import run of a workbook. -/
def opsOf (wb : List (String × List (List PCell))) (g : Option String) : List SContent :=
  match sheetOf wb with
  | none => []
  | some sheet =>
    match findHeader sheet.tail with
    | none => []
    | some (hidx, _) =>
      let cols := sheet.tail.getD hidx []
      if (Config.REQUIRED_COLUMNS.filter (fun c => ¬ cols.contains (PCell.str c))) ≠ [] then []
      else (sheet.tail.drop (hidx + 1)).filterMap (rowOp cols g)

/-- Did the run pass every structural stage (sheet found, marker found,
required labels bound)? -/
def structuralOk (wb : List (String × List (List PCell))) : Bool :=
  match sheetOf wb with
  | none => false
  | some sheet =>
    match findHeader sheet.tail with
    | none => false
    | some (hidx, _) =>
      Config.REQUIRED_COLUMNS.all (fun c => (sheet.tail.getD hidx []).contains (PCell.str c))

/-- The data rows an import run iterates over (empty when a structural stage
fails). -/
def dataRowsOf (wb : List (String × List (List PCell))) : List (List PCell) :=
  match sheetOf wb with
  | none => []
  | some sheet =>
    match findHeader sheet.tail with
    | none => []
    | some (hidx, _) => sheet.tail.drop (hidx + 1)

/-- The column labels an import run binds (empty when a structural stage
fails). -/
def colsOf (wb : List (String × List (List PCell))) : List PCell :=
  match sheetOf wb with
  | none => []
  | some sheet =>
    match findHeader sheet.tail with
    | none => []
    | some (hidx, _) => sheet.tail.getD hidx []

/-- The rows an import run records in its per-row error list. -/
def invalidCountOf (wb : List (String × List (List PCell))) : Nat :=
  ((dataRowsOf wb).filter (fun r => rowInvalid (colsOf wb) r)).length

/-- The rows an import run successfully upserts. -/
def validCountOf (wb : List (String × List (List PCell))) (g : Option String) : Nat :=
  ((dataRowsOf wb).filterMap (rowOp (colsOf wb) g)).length

/-- At most one student row per matricule. -/
def uniqueByMatricule (l : List Student) : Prop :=
  l.Pairwise (fun a b => a.matricule ≠ b.matricule)

/-! ## Concrete fixtures used by the claim theorems -/

/-- A store holding one student (id 1) together with an attendance row, a
mark row and a comment row referencing it. -/
def dbC1 : DB :=
  ⟨[⟨1, "123456789012", "Doe", "Jo", "A", "G1", 0, 0⟩],
   [⟨1, 1, 1, AttStatus.present⟩],
   [⟨1, 1, 1, some 12⟩],
   [⟨1, 1, 1, "late twice"⟩], 2⟩

/-- Workbook: one banner row, then the header, then one row with matricule
M and the old name. -/
def wbOld : List (String × List (List PCell)) :=
  [("Sheet1",
    [[PCell.str "liste"],
     [PCell.str "Matricule", PCell.str "Nom", PCell.str "Prénom"],
     [PCell.str "123456789012", PCell.str "Old", PCell.str "A"]])]

/-- Same matricule as `wbOld`, different name. -/
def wbNew : List (String × List (List PCell)) :=
  [("Sheet1",
    [[PCell.str "liste"],
     [PCell.str "Matricule", PCell.str "Nom", PCell.str "Prénom"],
     [PCell.str "123456789012", PCell.str "New", PCell.str "B"]])]

/-- A store holding one student of group G. -/
def dbPage1 : DB :=
  ⟨[⟨1, "123456789012", "Doe", "Jo", "", "G", 0, 0⟩], [], [], [], 2⟩

/-- A store holding three students of group G (for the pagination witness). -/
def dbPage3 : DB :=
  ⟨[⟨1, "111111111111", "Ax", "P", "", "G", 0, 0⟩,
    ⟨2, "222222222222", "Bx", "Q", "", "G", 0, 0⟩,
    ⟨3, "333333333333", "Cx", "R", "", "G", 0, 0⟩], [], [], [], 4⟩

/-- A sheet whose Section column exists but whose Section cell is the pandas
NaN placeholder (an empty spreadsheet cell). -/
def wbNanSection : List (String × List (List PCell)) :=
  [("Sheet1",
    [[PCell.str "banner"],
     [PCell.str "Matricule", PCell.str "Nom", PCell.str "Prénom", PCell.str "Section"],
     [PCell.str "123456789012", PCell.str " D ", PCell.str "A", PCell.nan]])]

/-- Padded name cells plus a group override. -/
def wbPadded : List (String × List (List PCell)) :=
  [("Sheet1",
    [[PCell.str "banner"],
     [PCell.str "Matricule", PCell.str "Nom", PCell.str "Prénom", PCell.str "Groupe"],
     [PCell.str "  123456789012  ", PCell.str "  Dupont ", PCell.str " Alice  ", PCell.str "old"]])]

/-- Two banner rows; the identifier column sits in position 3 (index 2). -/
def bannerSheet : List (List PCell) :=
  [[PCell.str "Liste des etudiants"],
   [PCell.nan, PCell.str "Annee 2024"],
   [PCell.nan, PCell.nan, PCell.str "Matricule", PCell.str "Nom", PCell.str "Prénom"],
   [PCell.nan, PCell.nan, PCell.str "123456789012", PCell.str "  Dupont ", PCell.str "Alice"]]

/-- A sheet whose very first row is the header row (no banner rows). -/
def cleanSheet : List (List PCell) :=
  [[PCell.str "Matricule", PCell.str "Nom", PCell.str "Prénom"],
   [PCell.str "123456789012", PCell.str "Doe", PCell.str "Ann"]]

/-- One valid data row of the C8 fixture. -/
def c8row (i : Nat) : List PCell :=
  [PCell.str ("1234567890" ++ toString (10 + i)), PCell.str "N", PCell.str "P"]

/-- Eleven data rows whose indices 0 and 10 fail identifier validation while
indices 1-9 import fine. -/
def wbEleven : List (String × List (List PCell)) :=
  [("Sheet1",
    [[PCell.str "x"], [PCell.str "Matricule", PCell.str "Nom", PCell.str "Prénom"]] ++
    ([[PCell.str "bad", PCell.str "N", PCell.str "P"]] ++ (List.range 9).map c8row ++
     [[PCell.str "bad2", PCell.str "N", PCell.str "P"]]))]

/-- Structural pass with one invalid row between two valid rows. -/
def wbMixed : List (String × List (List PCell)) :=
  [("Sheet1",
    [[PCell.str "banner"],
     [PCell.str "Matricule", PCell.str "Nom", PCell.str "Prénom"],
     [PCell.str "111111111111", PCell.str "U", PCell.str "V"],
     [PCell.str "12", PCell.str "W", PCell.str "X"],
     [PCell.str "222222222222", PCell.str "Y", PCell.str "Z"]])]

/-- Marks {12, 16, 20} and attendance {Present: 3, Absent: 1} for student 1. -/
def dbStats : DB :=
  ⟨[⟨1, "123456789012", "Doe", "Jo", "", "G", 0, 0⟩],
   [⟨1, 1, 1, AttStatus.present⟩, ⟨2, 1, 2, AttStatus.present⟩,
    ⟨3, 1, 3, AttStatus.present⟩, ⟨4, 1, 4, AttStatus.absent⟩],
   [⟨1, 1, 1, some 12⟩, ⟨2, 1, 2, some 16⟩, ⟨3, 1, 3, some 20⟩], [], 2⟩

end STrack

namespace STrack

/-! ### The content-level upsert fold: characterization and consequences -/

lemma applyOps_cons (v : SContent) (t : List SContent) (c : List SContent) :
    applyOps (v :: t) c = applyOps t (upsertC c v) := rfl

lemma keyMem_cons (v : SContent) (t : List SContent) (m : String) :
    keyMem (v :: t) m = (decide (v.matricule = m) || keyMem t m) := by
  simp [keyMem]

lemma mem_canonOps : ∀ {ops : List SContent} {r : SContent},
    r ∈ canonOps ops → keyMem ops r.matricule = true
  | [], r, h => by simp [canonOps] at h
  | v :: t, r, h => by
    rw [canonOps] at h
    split at h
    · have := mem_canonOps h
      simp [keyMem_cons, this]
    · rcases List.mem_cons.mp h with h1 | h2
      · subst h1; simp [keyMem_cons]
      · have := mem_canonOps h2
        simp [keyMem_cons, this]

lemma applyOps_eq : ∀ (ops : List SContent) (c : List SContent),
    applyOps ops c = c.filter (fun r => !keyMem ops r.matricule) ++ canonOps ops
  | [], c => by simp [applyOps, canonOps, keyMem]
  | v :: t, c => by
    rw [applyOps_cons, applyOps_eq t, canonOps]
    unfold upsertC
    rw [List.filter_append, List.filter_filter]
    have hpt : ∀ r : SContent,
        ((!keyMem t r.matricule) && decide (r.matricule ≠ v.matricule)) =
          (!keyMem (v :: t) r.matricule) := by
      intro r
      rw [keyMem_cons]
      by_cases h1 : v.matricule = r.matricule
      · simp [h1]
      · have h2 : r.matricule ≠ v.matricule := fun hh => h1 hh.symm
        simp [h1, h2]
    rw [List.filter_congr (fun r _ => hpt r)]
    by_cases hk : keyMem t v.matricule = true
    · simp [hk]
    · simp [hk]

lemma canonOps_filter_self (ops : List SContent) :
    (canonOps ops).filter (fun r => !keyMem ops r.matricule) = [] := by
  rw [List.filter_eq_nil_iff]
  intro r hr
  simp [mem_canonOps hr]

lemma applyOps_idem (ops c : List SContent) :
    applyOps ops (applyOps ops c) = applyOps ops c := by
  rw [applyOps_eq, applyOps_eq, List.filter_append, List.filter_filter,
    canonOps_filter_self]
  have : ∀ r : SContent,
      ((!keyMem ops r.matricule) && !keyMem ops r.matricule) = (!keyMem ops r.matricule) := by
    intro r; exact Bool.and_self _
  rw [List.filter_congr (fun r _ => this r)]
  simp

lemma canonOps_pairwise : ∀ ops : List SContent,
    (canonOps ops).Pairwise (fun a b => a.matricule ≠ b.matricule)
  | [] => by simp [canonOps]
  | v :: t => by
    rw [canonOps]
    split
    · exact canonOps_pairwise t
    · next hk =>
      refine List.Pairwise.cons ?_ (canonOps_pairwise t)
      intro b hb heq
      have hbm := mem_canonOps hb
      rw [← heq] at hbm
      exact hk hbm

lemma applyOps_pairwise (ops c : List SContent)
    (h : c.Pairwise (fun a b => a.matricule ≠ b.matricule)) :
    (applyOps ops c).Pairwise (fun a b => a.matricule ≠ b.matricule) := by
  rw [applyOps_eq, List.pairwise_append]
  refine ⟨h.filter _, canonOps_pairwise ops, ?_⟩
  intro a ha b hb hEq
  have hA := (List.mem_filter.mp ha).2
  have hB := mem_canonOps hb
  rw [hEq] at hA
  rw [hB] at hA
  exact absurd hA (by simp)

end STrack

namespace STrack

/-! ### Bridging the ingestion loop to the content-level fold -/

@[simp] lemma content_matricule (s : Student) : (Student.content s).matricule = s.matricule := rfl

lemma contentOf_upsert (db : DB) (m n p se g : String) (t : Nat) :
    contentOf (upsertStudent db m n p se g t) = upsertC (contentOf db) ⟨m, n, p, se, g⟩ := by
  unfold contentOf upsertStudent upsertC
  simp only [List.map_append, List.map_cons, List.map_nil]
  rw [List.filter_map]
  rfl

lemma procRow_db (cols : List PCell) (g : Option String) (hs : Bool) (total t : Nat)
    (st : LoopSt) (idx : Nat) (row : List PCell) :
    (procRow cols g hs total t st idx row).db =
      (match rowOp cols g row with
       | none => st.db
       | some v => upsertStudent st.db v.matricule v.nom v.prenom v.sect v.groupe t) := by
  unfold procRow rowOp
  cases h : getByLabel cols row "Matricule" with
  | none => rfl
  | some c =>
    by_cases hn : c.isna
    · simp [hn]
    · by_cases hv : (validate_matricule (pyStrip c.pyStr)).1 = false
      · simp [hn, hv]
      · simp [hn, hv]

lemma procRow_imported (cols : List PCell) (g : Option String) (hs : Bool) (total t : Nat)
    (st : LoopSt) (idx : Nat) (row : List PCell) :
    (procRow cols g hs total t st idx row).imported =
      st.imported + (if (rowOp cols g row).isSome then 1 else 0) := by
  unfold procRow rowOp
  cases h : getByLabel cols row "Matricule" with
  | none => rfl
  | some c =>
    by_cases hn : c.isna
    · simp [hn]
    · by_cases hv : (validate_matricule (pyStrip c.pyStr)).1 = false
      · simp [hn, hv]
      · simp [hn, hv]

lemma procRow_errors (cols : List PCell) (g : Option String) (hs : Bool) (total t : Nat)
    (st : LoopSt) (idx : Nat) (row : List PCell) :
    (procRow cols g hs total t st idx row).errors.length =
      st.errors.length + (if rowInvalid cols row then 1 else 0) := by
  unfold procRow rowInvalid
  cases h : getByLabel cols row "Matricule" with
  | none => rfl
  | some c =>
    by_cases hn : c.isna
    · simp [hn]
    · by_cases hv : (validate_matricule (pyStrip c.pyStr)).1 = false
      · simp [hn, hv]
      · simp [hn, hv]

lemma procRow_trace_mem (cols : List PCell) (g : Option String) (hs : Bool) (total t : Nat)
    (st : LoopSt) (idx : Nat) (row : List PCell) {q : ℚ}
    (hq : q ∈ (procRow cols g hs total t st idx row).trace) :
    q ∈ st.trace ∨ q = 2 / 10 + 7 / 10 * ((idx : ℚ) / (total : ℚ)) := by
  unfold procRow at hq
  rcases h : getByLabel cols row "Matricule" with _ | c
  · rw [h] at hq; exact Or.inl hq
  · rw [h] at hq
    by_cases hn : c.isna
    · simp only [hn, if_true] at hq; exact Or.inl hq
    · simp only [hn] at hq
      by_cases hv : (validate_matricule (pyStrip c.pyStr)).1 = false
      · simp only [hv, if_true] at hq; exact Or.inl hq
      · simp only [hv, if_false] at hq
        by_cases hc : hs = true ∧ idx % 10 = 0
        · simp only [hc, if_true] at hq
          rcases List.mem_append.mp hq with h1 | h2
          · exact Or.inl h1
          · simp at h2; exact Or.inr h2
        · simp only [hc, if_false] at hq; exact Or.inl hq

lemma procRow_trace_noSink (cols : List PCell) (g : Option String) (total t : Nat)
    (st : LoopSt) (idx : Nat) (row : List PCell) :
    (procRow cols g false total t st idx row).trace = st.trace := by
  unfold procRow
  rcases h : getByLabel cols row "Matricule" with _ | c
  · rfl
  · by_cases hn : c.isna
    · simp [hn]
    · by_cases hv : (validate_matricule (pyStrip c.pyStr)).1 = false
      · simp [hn, hv]
      · simp [hn, hv]

lemma procRow_mask (cols : List PCell) (g : Option String) (hs hs2 : Bool) (total t : Nat)
    (st : LoopSt) (idx : Nat) (row : List PCell) (tr : List ℚ) :
    ∃ tr2, procRow cols g hs2 total t { st with trace := tr } idx row =
      { procRow cols g hs total t st idx row with trace := tr2 } := by
  unfold procRow
  rcases h : getByLabel cols row "Matricule" with _ | c
  · exact ⟨tr, rfl⟩
  · by_cases hn : c.isna
    · simp only [hn, if_true]
      exact ⟨tr, rfl⟩
    · simp only [hn]
      by_cases hv : (validate_matricule (pyStrip c.pyStr)).1 = false
      · simp only [hv, if_true]
        exact ⟨tr, rfl⟩
      · simp only [hv, if_false]
        exact ⟨_, rfl⟩

end STrack

namespace STrack

lemma runRows_content (cols : List PCell) (g : Option String) (hs : Bool) (total t : Nat) :
    ∀ (rows : List (List PCell)) (idx : Nat) (st : LoopSt),
      contentOf (runRows cols g hs total t rows idx st).db =
        applyOps (rows.filterMap (rowOp cols g)) (contentOf st.db)
  | [], idx, st => rfl
  | r :: rs, idx, st => by
    rw [runRows, runRows_content cols g hs total t rs (idx + 1) (procRow cols g hs total t st idx r),
      List.filterMap_cons]
    cases h : rowOp cols g r with
    | none =>
      have hdb := procRow_db cols g hs total t st idx r
      rw [h] at hdb
      rw [hdb]
    | some v =>
      have hdb := procRow_db cols g hs total t st idx r
      rw [h] at hdb
      rw [applyOps_cons, hdb, contentOf_upsert]

lemma runRows_imported (cols : List PCell) (g : Option String) (hs : Bool) (total t : Nat) :
    ∀ (rows : List (List PCell)) (idx : Nat) (st : LoopSt),
      (runRows cols g hs total t rows idx st).imported =
        st.imported + (rows.filterMap (rowOp cols g)).length
  | [], idx, st => rfl
  | r :: rs, idx, st => by
    rw [runRows, runRows_imported cols g hs total t rs (idx + 1) (procRow cols g hs total t st idx r),
      procRow_imported, List.filterMap_cons]
    cases h : rowOp cols g r with
    | none => simp [h]
    | some v => simp [h]; omega

lemma runRows_errors (cols : List PCell) (g : Option String) (hs : Bool) (total t : Nat) :
    ∀ (rows : List (List PCell)) (idx : Nat) (st : LoopSt),
      (runRows cols g hs total t rows idx st).errors.length =
        st.errors.length + (rows.filter (fun r => rowInvalid cols r)).length
  | [], idx, st => rfl
  | r :: rs, idx, st => by
    rw [runRows, runRows_errors cols g hs total t rs (idx + 1) (procRow cols g hs total t st idx r),
      procRow_errors, List.filter_cons]
    by_cases h : rowInvalid cols r
    · simp [h]; omega
    · simp [h]

lemma runRows_trace_mem (cols : List PCell) (g : Option String) (hs : Bool) (total t : Nat) :
    ∀ (rows : List (List PCell)) (idx : Nat) (st : LoopSt),
      idx + rows.length ≤ total →
      ∀ q ∈ (runRows cols g hs total t rows idx st).trace,
        q ∈ st.trace ∨ ∃ i, i < total ∧ q = 2 / 10 + 7 / 10 * ((i : ℚ) / (total : ℚ))
  | [], idx, st, _, q, hq => Or.inl hq
  | r :: rs, idx, st, hle, q, hq => by
    rw [runRows] at hq
    have hle2 : (idx + 1) + rs.length ≤ total := by simp at hle; omega
    rcases runRows_trace_mem cols g hs total t rs (idx + 1) (procRow cols g hs total t st idx r) hle2 q hq with h1 | h2
    · rcases procRow_trace_mem cols g hs total t st idx r h1 with h3 | h4
      · exact Or.inl h3
      · refine Or.inr ⟨idx, ?_, h4⟩
        simp at hle; omega
    · exact Or.inr h2

lemma runRows_trace_noSink (cols : List PCell) (g : Option String) (total t : Nat) :
    ∀ (rows : List (List PCell)) (idx : Nat) (st : LoopSt),
      (runRows cols g false total t rows idx st).trace = st.trace
  | [], idx, st => rfl
  | r :: rs, idx, st => by
    rw [runRows, runRows_trace_noSink cols g total t rs (idx + 1) (procRow cols g false total t st idx r),
      procRow_trace_noSink]

lemma runRows_mask (cols : List PCell) (g : Option String) (hs hs2 : Bool) (total t : Nat) :
    ∀ (rows : List (List PCell)) (idx : Nat) (st : LoopSt) (tr : List ℚ),
      ∃ tr2, runRows cols g hs2 total t rows idx { st with trace := tr } =
        { runRows cols g hs total t rows idx st with trace := tr2 }
  | [], idx, st, tr => ⟨tr, rfl⟩
  | r :: rs, idx, st, tr => by
    obtain ⟨trA, hA⟩ := procRow_mask cols g hs hs2 total t st idx r tr
    obtain ⟨trB, hB⟩ := runRows_mask cols g hs hs2 total t rs (idx + 1) (procRow cols g hs total t st idx r) trA
    exact ⟨trB, by rw [runRows, hA, hB, runRows]⟩

end STrack


namespace STrack

lemma procRow_trace_shape (cols : List PCell) (g : Option String) (hs : Bool) (total t : Nat)
    (st : LoopSt) (idx : Nat) (row : List PCell) :
    (procRow cols g hs total t st idx row).trace = st.trace ∨
      (procRow cols g hs total t st idx row).trace =
        st.trace ++ [2 / 10 + 7 / 10 * ((idx : ℚ) / (total : ℚ))] := by
  unfold procRow
  rcases h : getByLabel cols row "Matricule" with _ | c
  · exact Or.inl rfl
  · by_cases hn : c.isna
    · simp [hn]
    · by_cases hv : (validate_matricule (pyStrip c.pyStr)).1 = false
      · simp [hn, hv]
      · simp only [hn, hv, if_false, Bool.false_eq_true]
        by_cases hc : hs = true ∧ idx % 10 = 0
        · simp [hc]
        · simp [hc]

lemma runRows_trace_shape (cols : List PCell) (g : Option String) (hs : Bool) (total t : Nat) :
    ∀ (rows : List (List PCell)) (idx : Nat) (st : LoopSt),
      idx + rows.length ≤ total →
      ∃ mids, (runRows cols g hs total t rows idx st).trace = st.trace ++ mids ∧
        ∀ q ∈ mids, ∃ i, i < total ∧ q = 2 / 10 + 7 / 10 * ((i : ℚ) / (total : ℚ))
  | [], idx, st, _ => ⟨[], by simp [runRows]⟩
  | r :: rs, idx, st, hle => by
    have hidx : idx < total := by simp at hle; omega
    have hle2 : (idx + 1) + rs.length ≤ total := by simp at hle; omega
    obtain ⟨mids, hmids, hbound⟩ :=
      runRows_trace_shape cols g hs total t rs (idx + 1) (procRow cols g hs total t st idx r) hle2
    rcases procRow_trace_shape cols g hs total t st idx r with h1 | h2
    · refine ⟨mids, ?_, hbound⟩
      rw [runRows, hmids, h1]
    · refine ⟨(2 / 10 + 7 / 10 * ((idx : ℚ) / (total : ℚ))) :: mids, ?_, ?_⟩
      · rw [runRows, hmids, h2]
        simp
      · intro q hq
        rcases List.mem_cons.mp hq with h3 | h4
        · exact ⟨idx, hidx, h3⟩
        · exact hbound q h4

/-! ### Unfolding equations for the import pipeline -/

lemma importFromExcel_noSheet (wb : List (String × List (List PCell))) (g : Option String)
    (hs : Bool) (t : Nat) (db : DB) (h : sheetOf wb = none) :
    importFromExcel wb g hs t db =
      { ok := false, message := "Import error: no sheet", count := 0, db := db, trace := [],
        errors := [] } := by
  unfold importFromExcel
  rw [h]

lemma importFromExcel_sheet (wb : List (String × List (List PCell))) (g : Option String)
    (hs : Bool) (t : Nat) (db : DB) (sheet : List (List PCell)) (h : sheetOf wb = some sheet) :
    importFromExcel wb g hs t db = importSheet sheet g hs t db := by
  unfold importFromExcel
  rw [h]

lemma importSheet_noHeader (sheet : List (List PCell)) (g : Option String) (hs : Bool) (t : Nat)
    (db : DB) (h : findHeader sheet.tail = none) :
    importSheet sheet g hs t db =
      { ok := false, message := "Could not find Matricule column", count := 0, db := db,
        trace := if hs then [1 / 10] else [], errors := [] } := by
  simp only [importSheet]
  rw [h]

lemma importSheet_missing (sheet : List (List PCell)) (g : Option String) (hs : Bool) (t : Nat)
    (db : DB) (hidx mcol : Nat) (h : findHeader sheet.tail = some (hidx, mcol))
    (hm : Config.REQUIRED_COLUMNS.filter
      (fun c => ¬ (sheet.tail.getD hidx []).contains (PCell.str c)) ≠ []) :
    importSheet sheet g hs t db =
      { ok := false
        message := "Missing required columns: " ++ String.intercalate ", "
          (Config.REQUIRED_COLUMNS.filter
            (fun c => ¬ (sheet.tail.getD hidx []).contains (PCell.str c)))
        count := 0, db := db, trace := if hs then [1 / 10] else [], errors := [] } := by
  simp only [importSheet, h]
  rw [if_pos hm]

lemma importSheet_success (sheet : List (List PCell)) (g : Option String) (hs : Bool) (t : Nat)
    (db : DB) (hidx mcol : Nat) (h : findHeader sheet.tail = some (hidx, mcol))
    (hm : Config.REQUIRED_COLUMNS.filter
      (fun c => ¬ (sheet.tail.getD hidx []).contains (PCell.str c)) = []) :
    importSheet sheet g hs t db =
      { ok := true
        message := "Successfully imported " ++
          toString (runRows (sheet.tail.getD hidx []) g hs (sheet.tail.drop (hidx + 1)).length t
            (sheet.tail.drop (hidx + 1)) 0
            ⟨db, 0, [], (if hs then [1 / 10] else []) ++ (if hs then [2 / 10] else [])⟩).imported ++
          " students" ++
          (if (runRows (sheet.tail.getD hidx []) g hs (sheet.tail.drop (hidx + 1)).length t
              (sheet.tail.drop (hidx + 1)) 0
              ⟨db, 0, [], (if hs then [1 / 10] else []) ++ (if hs then [2 / 10] else [])⟩).errors ≠ []
           then "\nWarnings: " ++
             toString (runRows (sheet.tail.getD hidx []) g hs (sheet.tail.drop (hidx + 1)).length t
               (sheet.tail.drop (hidx + 1)) 0
               ⟨db, 0, [], (if hs then [1 / 10] else []) ++
                 (if hs then [2 / 10] else [])⟩).errors.length ++ " rows skipped"
           else "")
        count := (runRows (sheet.tail.getD hidx []) g hs (sheet.tail.drop (hidx + 1)).length t
          (sheet.tail.drop (hidx + 1)) 0
          ⟨db, 0, [], (if hs then [1 / 10] else []) ++ (if hs then [2 / 10] else [])⟩).imported
        db := (runRows (sheet.tail.getD hidx []) g hs (sheet.tail.drop (hidx + 1)).length t
          (sheet.tail.drop (hidx + 1)) 0
          ⟨db, 0, [], (if hs then [1 / 10] else []) ++ (if hs then [2 / 10] else [])⟩).db
        trace := (runRows (sheet.tail.getD hidx []) g hs (sheet.tail.drop (hidx + 1)).length t
          (sheet.tail.drop (hidx + 1)) 0
          ⟨db, 0, [], (if hs then [1 / 10] else []) ++
            (if hs then [2 / 10] else [])⟩).trace ++ (if hs then [1] else [])
        errors := (runRows (sheet.tail.getD hidx []) g hs (sheet.tail.drop (hidx + 1)).length t
          (sheet.tail.drop (hidx + 1)) 0
          ⟨db, 0, [], (if hs then [1 / 10] else []) ++
            (if hs then [2 / 10] else [])⟩).errors } := by
  simp only [importSheet]
  rw [h]
  simp only [hm, ne_eq, not_true_eq_false, if_false, ite_false]

end STrack



namespace STrack

lemma procRow_comp (cols : List PCell) (g : Option String) (hs hs2 : Bool) (total t : Nat)
    (st st2 : LoopSt) (idx : Nat) (row : List PCell)
    (h1 : st.db = st2.db) (h2 : st.imported = st2.imported) (h3 : st.errors = st2.errors) :
    (procRow cols g hs total t st idx row).db = (procRow cols g hs2 total t st2 idx row).db ∧
    (procRow cols g hs total t st idx row).imported = (procRow cols g hs2 total t st2 idx row).imported ∧
    (procRow cols g hs total t st idx row).errors = (procRow cols g hs2 total t st2 idx row).errors := by
  unfold procRow
  rcases h : getByLabel cols row "Matricule" with _ | c
  · exact ⟨h1, h2, h3⟩
  · by_cases hn : c.isna
    · simp only [hn, if_true]
      exact ⟨h1, h2, h3⟩
    · simp only [hn, Bool.false_eq_true, if_false]
      by_cases hv : (validate_matricule (pyStrip c.pyStr)).1 = false
      · simp only [hv, if_true]
        exact ⟨h1, h2, by rw [h3]⟩
      · rw [if_neg hv, if_neg hv]
        exact ⟨by rw [h1], by rw [h2], h3⟩

lemma runRows_comp (cols : List PCell) (g : Option String) (hs hs2 : Bool) (total t : Nat) :
    ∀ (rows : List (List PCell)) (idx : Nat) (st st2 : LoopSt),
      st.db = st2.db → st.imported = st2.imported → st.errors = st2.errors →
      (runRows cols g hs total t rows idx st).db = (runRows cols g hs2 total t rows idx st2).db ∧
      (runRows cols g hs total t rows idx st).imported =
        (runRows cols g hs2 total t rows idx st2).imported ∧
      (runRows cols g hs total t rows idx st).errors =
        (runRows cols g hs2 total t rows idx st2).errors
  | [], idx, st, st2, h1, h2, h3 => ⟨h1, h2, h3⟩
  | r :: rs, idx, st, st2, h1, h2, h3 => by
    obtain ⟨g1, g2, g3⟩ := procRow_comp cols g hs hs2 total t st st2 idx r h1 h2 h3
    exact runRows_comp cols g hs hs2 total t rs (idx + 1) _ _ g1 g2 g3

lemma opsOf_noSheet (wb : List (String × List (List PCell))) (g : Option String)
    (h : sheetOf wb = none) : opsOf wb g = [] := by
  simp only [opsOf, h]

lemma opsOf_noHeader (wb : List (String × List (List PCell))) (g : Option String)
    (sheet : List (List PCell)) (hS : sheetOf wb = some sheet)
    (hH : findHeader sheet.tail = none) : opsOf wb g = [] := by
  simp only [opsOf, hS, hH]

lemma opsOf_missing (wb : List (String × List (List PCell))) (g : Option String)
    (sheet : List (List PCell)) (hidx mcol : Nat) (hS : sheetOf wb = some sheet)
    (hH : findHeader sheet.tail = some (hidx, mcol))
    (hm : Config.REQUIRED_COLUMNS.filter
      (fun c => ¬ (sheet.tail.getD hidx []).contains (PCell.str c)) ≠ []) :
    opsOf wb g = [] := by
  simp only [opsOf, hS, hH]
  rw [if_pos hm]

lemma opsOf_success (wb : List (String × List (List PCell))) (g : Option String)
    (sheet : List (List PCell)) (hidx mcol : Nat) (hS : sheetOf wb = some sheet)
    (hH : findHeader sheet.tail = some (hidx, mcol))
    (hm : Config.REQUIRED_COLUMNS.filter
      (fun c => ¬ (sheet.tail.getD hidx []).contains (PCell.str c)) = []) :
    opsOf wb g = (sheet.tail.drop (hidx + 1)).filterMap (rowOp (sheet.tail.getD hidx []) g) := by
  simp only [opsOf, hS, hH]
  rw [if_neg (not_not_intro hm)]

lemma importFromExcel_content (wb : List (String × List (List PCell))) (g : Option String)
    (hs : Bool) (t : Nat) (db : DB) :
    contentOf (importFromExcel wb g hs t db).db = applyOps (opsOf wb g) (contentOf db) := by
  rcases hS : sheetOf wb with _ | sheet
  · rw [importFromExcel_noSheet wb g hs t db hS, opsOf_noSheet wb g hS]
    rfl
  · rw [importFromExcel_sheet wb g hs t db sheet hS]
    rcases hH : findHeader sheet.tail with _ | ⟨hidx, mcol⟩
    · rw [importSheet_noHeader sheet g hs t db hH, opsOf_noHeader wb g sheet hS hH]
      rfl
    · by_cases hm : Config.REQUIRED_COLUMNS.filter
          (fun c => ¬ (sheet.tail.getD hidx []).contains (PCell.str c)) = []
      · rw [importSheet_success sheet g hs t db hidx mcol hH hm,
          opsOf_success wb g sheet hidx mcol hS hH hm]
        exact runRows_content _ _ _ _ _ _ _ _
      · rw [importSheet_missing sheet g hs t db hidx mcol hH hm,
          opsOf_missing wb g sheet hidx mcol hS hH hm]
        rfl

lemma importFromExcel_trace_noSink (wb : List (String × List (List PCell))) (g : Option String)
    (t : Nat) (db : DB) :
    (importFromExcel wb g false t db).trace = [] := by
  rcases hS : sheetOf wb with _ | sheet
  · rw [importFromExcel_noSheet wb g false t db hS]
  · rw [importFromExcel_sheet wb g false t db sheet hS]
    rcases hH : findHeader sheet.tail with _ | ⟨hidx, mcol⟩
    · rw [importSheet_noHeader sheet g false t db hH]
      rfl
    · by_cases hm : Config.REQUIRED_COLUMNS.filter
          (fun c => ¬ (sheet.tail.getD hidx []).contains (PCell.str c)) = []
      · rw [importSheet_success sheet g false t db hidx mcol hH hm]
        show (runRows _ _ _ _ _ _ _ ⟨db, 0, [], [] ++ []⟩).trace ++ [] = []
        rw [List.append_nil]
        exact runRows_trace_noSink _ _ _ _ _ _ _
      · rw [importSheet_missing sheet g false t db hidx mcol hH hm]
        rfl

lemma importFromExcel_mask (wb : List (String × List (List PCell))) (g : Option String)
    (t : Nat) (db : DB) :
    (importFromExcel wb g false t db).ok = (importFromExcel wb g true t db).ok ∧
    (importFromExcel wb g false t db).message = (importFromExcel wb g true t db).message ∧
    (importFromExcel wb g false t db).count = (importFromExcel wb g true t db).count ∧
    (importFromExcel wb g false t db).db = (importFromExcel wb g true t db).db ∧
    (importFromExcel wb g false t db).errors = (importFromExcel wb g true t db).errors := by
  rcases hS : sheetOf wb with _ | sheet
  · rw [importFromExcel_noSheet wb g false t db hS, importFromExcel_noSheet wb g true t db hS]
    exact ⟨rfl, rfl, rfl, rfl, rfl⟩
  · rw [importFromExcel_sheet wb g false t db sheet hS, importFromExcel_sheet wb g true t db sheet hS]
    rcases hH : findHeader sheet.tail with _ | ⟨hidx, mcol⟩
    · rw [importSheet_noHeader sheet g false t db hH, importSheet_noHeader sheet g true t db hH]
      exact ⟨rfl, rfl, rfl, rfl, rfl⟩
    · by_cases hm : Config.REQUIRED_COLUMNS.filter
          (fun c => ¬ (sheet.tail.getD hidx []).contains (PCell.str c)) = []
      · rw [importSheet_success sheet g false t db hidx mcol hH hm,
          importSheet_success sheet g true t db hidx mcol hH hm]
        obtain ⟨g1, g2, g3⟩ := runRows_comp (sheet.tail.getD hidx []) g false true
          ((sheet.tail.drop (hidx + 1)).length) t (sheet.tail.drop (hidx + 1)) 0
          ⟨db, 0, [], (if false then [1 / 10] else []) ++ (if false then [2 / 10] else [])⟩
          ⟨db, 0, [], (if true then [1 / 10] else []) ++ (if true then [2 / 10] else [])⟩
          rfl rfl rfl
        refine ⟨rfl, ?_, g2, g1, g3⟩
        rw [g2, g3]
      · rw [importSheet_missing sheet g false t db hidx mcol hH hm,
          importSheet_missing sheet g true t db hidx mcol hH hm]
        exact ⟨rfl, rfl, rfl, rfl, rfl⟩

end STrack


namespace STrack

lemma dataRowsOf_success (wb : List (String × List (List PCell))) (sheet : List (List PCell))
    (hidx mcol : Nat) (hS : sheetOf wb = some sheet)
    (hH : findHeader sheet.tail = some (hidx, mcol)) :
    dataRowsOf wb = sheet.tail.drop (hidx + 1) := by
  simp only [dataRowsOf, hS, hH]

lemma colsOf_success (wb : List (String × List (List PCell))) (sheet : List (List PCell))
    (hidx mcol : Nat) (hS : sheetOf wb = some sheet)
    (hH : findHeader sheet.tail = some (hidx, mcol)) :
    colsOf wb = sheet.tail.getD hidx [] := by
  simp only [colsOf, hS, hH]

lemma structuralOk_elim (wb : List (String × List (List PCell)))
    (h : structuralOk wb = true) :
    ∃ sheet hidx mcol, sheetOf wb = some sheet ∧ findHeader sheet.tail = some (hidx, mcol) ∧
      Config.REQUIRED_COLUMNS.filter
        (fun c => ¬ (sheet.tail.getD hidx []).contains (PCell.str c)) = [] := by
  unfold structuralOk at h
  rcases hS : sheetOf wb with _ | sheet
  · rw [hS] at h; exact absurd h (by simp)
  · simp only [hS] at h
    rcases hH : findHeader sheet.tail with _ | ⟨hidx, mcol⟩
    · simp only [hH] at h
      exact absurd h (by simp)
    · simp only [hH] at h
      refine ⟨sheet, hidx, mcol, rfl, hH, ?_⟩
      rw [List.filter_eq_nil_iff]
      intro a ha
      have hc := (List.all_eq_true.mp h) a ha
      simp only [decide_eq_true_eq]
      intro hcon
      exact hcon hc

lemma structuralOk_intro (wb : List (String × List (List PCell))) (sheet : List (List PCell))
    (hidx mcol : Nat) (hS : sheetOf wb = some sheet)
    (hH : findHeader sheet.tail = some (hidx, mcol))
    (hm : Config.REQUIRED_COLUMNS.filter
      (fun c => ¬ (sheet.tail.getD hidx []).contains (PCell.str c)) = []) :
    structuralOk wb = true := by
  unfold structuralOk
  simp only [hS, hH]
  rw [List.all_eq_true]
  intro a ha
  have hthis := List.filter_eq_nil_iff.mp hm a ha
  simp only [decide_eq_true_eq] at hthis
  exact not_not.mp hthis

lemma importFromExcel_success_spec (wb : List (String × List (List PCell))) (g : Option String)
    (hs : Bool) (t : Nat) (db : DB) (h : structuralOk wb = true) :
    (importFromExcel wb g hs t db).ok = true ∧
    (importFromExcel wb g hs t db).count = validCountOf wb g ∧
    (importFromExcel wb g hs t db).errors.length = invalidCountOf wb ∧
    (importFromExcel wb g hs t db).message =
      "Successfully imported " ++ toString (validCountOf wb g) ++ " students" ++
        (if invalidCountOf wb ≠ 0 then
          "\nWarnings: " ++ toString (invalidCountOf wb) ++ " rows skipped" else "") := by
  obtain ⟨sheet, hidx, mcol, hS, hH, hm⟩ := structuralOk_elim wb h
  rw [importFromExcel_sheet wb g hs t db sheet hS,
    importSheet_success sheet g hs t db hidx mcol hH hm]
  set C := sheet.tail.getD hidx [] with hC
  set R := sheet.tail.drop (hidx + 1) with hR
  set init : LoopSt :=
    ⟨db, 0, [], (if hs then [1 / 10] else []) ++ (if hs then [2 / 10] else [])⟩ with hinit
  set st := runRows C g hs R.length t R 0 init with hst
  have hvc : validCountOf wb g = (R.filterMap (rowOp C g)).length := by
    unfold validCountOf
    rw [dataRowsOf_success wb sheet hidx mcol hS hH, colsOf_success wb sheet hidx mcol hS hH]
  have hic : invalidCountOf wb = (R.filter (fun r => rowInvalid C r)).length := by
    unfold invalidCountOf
    rw [dataRowsOf_success wb sheet hidx mcol hS hH, colsOf_success wb sheet hidx mcol hS hH]
  have himp : st.imported = (R.filterMap (rowOp C g)).length := by
    rw [hst, hinit]
    rw [runRows_imported C g hs R.length t R 0
      ⟨db, 0, [], (if hs then [1 / 10] else []) ++ (if hs then [2 / 10] else [])⟩]
    simp
  have herr : st.errors.length = (R.filter (fun r => rowInvalid C r)).length := by
    rw [hst, hinit]
    rw [runRows_errors C g hs R.length t R 0
      ⟨db, 0, [], (if hs then [1 / 10] else []) ++ (if hs then [2 / 10] else [])⟩]
    simp
  refine ⟨rfl, ?_, ?_, ?_⟩
  · show st.imported = validCountOf wb g
    rw [himp, hvc]
  · show st.errors.length = invalidCountOf wb
    rw [herr, hic]
  · show "Successfully imported " ++ toString st.imported ++ " students" ++
      (if st.errors ≠ [] then "\nWarnings: " ++ toString st.errors.length ++ " rows skipped"
       else "") = _
    rw [himp, ← hvc, herr, ← hic]
    by_cases hz : invalidCountOf wb = 0
    · have hnil : st.errors = [] := by
        rw [← List.length_eq_zero, herr, ← hic]
        exact hz
      rw [if_neg (by rw [hnil]; simp), if_neg (by simpa using hz)]
    · have hne : st.errors ≠ [] := by
        intro hnil
        rw [hnil] at herr
        simp at herr
        rw [hic] at hz
        exact hz herr.symm
      rw [if_pos hne, if_pos hz]

lemma importFromExcel_fail_spec (wb : List (String × List (List PCell))) (g : Option String)
    (hs : Bool) (t : Nat) (db : DB) (h : structuralOk wb = false) :
    (importFromExcel wb g hs t db).ok = false ∧
    (importFromExcel wb g hs t db).count = 0 ∧
    (importFromExcel wb g hs t db).db = db ∧
    (importFromExcel wb g hs t db).errors = [] := by
  rcases hS : sheetOf wb with _ | sheet
  · rw [importFromExcel_noSheet wb g hs t db hS]
    exact ⟨rfl, rfl, rfl, rfl⟩
  · rw [importFromExcel_sheet wb g hs t db sheet hS]
    rcases hH : findHeader sheet.tail with _ | ⟨hidx, mcol⟩
    · rw [importSheet_noHeader sheet g hs t db hH]
      exact ⟨rfl, rfl, rfl, rfl⟩
    · by_cases hm : Config.REQUIRED_COLUMNS.filter
          (fun c => ¬ (sheet.tail.getD hidx []).contains (PCell.str c)) = []
      · exact absurd (structuralOk_intro wb sheet hidx mcol hS hH hm) (by rw [h]; simp)
      · rw [importSheet_missing sheet g hs t db hidx mcol hH hm]
        exact ⟨rfl, rfl, rfl, rfl⟩

end STrack


namespace STrack

/-! ### Arithmetic helpers -/

lemma rndHalfEven_zero : rndHalfEven 0 = 0 := by
  unfold rndHalfEven
  norm_num

lemma roundq_zero (d : Nat) : roundq d 0 = 0 := by
  unfold roundq
  rw [show (0 : ℚ) * (10 : ℚ) ^ d = 0 by ring, rndHalfEven_zero]
  simp

lemma ceilDiv_eq_natCeil (n P : Nat) (hP : 0 < P) :
    (n + P - 1) / P = ⌈(n : ℚ) / (P : ℚ)⌉₊ := by
  rcases Nat.eq_zero_or_pos n with hn | hn
  · subst hn
    rw [Nat.div_eq_of_lt (by omega)]
    simp
  · have hmod : P * ((n + P - 1) / P) + (n + P - 1) % P = n + P - 1 :=
      Nat.div_add_mod (n + P - 1) P
    have hr : (n + P - 1) % P < P := Nat.mod_lt _ hP
    set k := (n + P - 1) / P with hkdef
    have hup : n ≤ P * k := by omega
    have hlo : P * k < n + P := by omega
    have hk0 : k ≠ 0 := by
      intro h0
      rw [h0, Nat.mul_zero] at hup
      omega
    rw [eq_comm, Nat.ceil_eq_iff hk0]
    have heq : (k - 1) * P = P * k - P := by
      rw [Nat.sub_one_mul, Nat.mul_comm]
    have heq2 : k * P = P * k := Nat.mul_comm k P
    constructor
    · rw [lt_div_iff (show (0 : ℚ) < (P : ℚ) by positivity)]
      have hnat : (k - 1) * P < n := by omega
      exact_mod_cast hnat
    · rw [div_le_iff (show (0 : ℚ) < (P : ℚ) by positivity)]
      have hnat : n ≤ k * P := by omega
      exact_mod_cast hnat

lemma ceil_mul_ge (n P : Nat) (hP : 0 < P) : n ≤ ((n + P - 1) / P) * P := by
  have hmod : P * ((n + P - 1) / P) + (n + P - 1) % P = n + P - 1 :=
    Nat.div_add_mod (n + P - 1) P
  have hr : (n + P - 1) % P < P := Nat.mod_lt _ hP
  have heq2 : ((n + P - 1) / P) * P = P * ((n + P - 1) / P) :=
    Nat.mul_comm _ P
  omega

/-! ### First-match characterization of the header scan -/

lemma findIdx?_some_spec (p : PCell → Bool) :
    ∀ (l : List PCell) (i j : Nat), List.findIdx? p l i = some j →
      i ≤ j ∧ j - i < l.length ∧ p (l.getD (j - i) PCell.nan) = true ∧
        ∀ k < j - i, p (l.getD k PCell.nan) = false
  | [], i, j, h => by simp [List.findIdx?_nil] at h
  | x :: xs, i, j, h => by
    rw [List.findIdx?_cons] at h
    by_cases hp : p x = true
    · rw [if_pos hp] at h
      have : i = j := by simpa using h
      subst this
      refine ⟨le_rfl, by simp, by simpa using hp, ?_⟩
      intro k hk
      omega
    · rw [if_neg hp] at h
      obtain ⟨h1, h2, h3, h4⟩ := findIdx?_some_spec p xs (i + 1) j h
      refine ⟨by omega, by simp; omega, ?_, ?_⟩
      · have : j - i = (j - (i + 1)) + 1 := by omega
        rw [this, List.getD_cons_succ]
        exact h3
      · intro k hk
        cases k with
        | zero => simpa using hp
        | succ k2 =>
          rw [List.getD_cons_succ]
          exact h4 k2 (by omega)

lemma findIdx?_none_spec (p : PCell → Bool) :
    ∀ (l : List PCell) (i : Nat), List.findIdx? p l i = none →
      ∀ x ∈ l, p x = false
  | [], _, _, x, hx => by simp at hx
  | y :: ys, i, h, x, hx => by
    rw [List.findIdx?_cons] at h
    by_cases hp : p y = true
    · rw [if_pos hp] at h
      exact absurd h (by simp)
    · rw [if_neg hp] at h
      rcases List.mem_cons.mp hx with h1 | h2
      · subst h1; simpa using hp
      · exact findIdx?_none_spec p ys (i + 1) h x h2

lemma findHeaderAux_spec :
    ∀ (rows : List (List PCell)) (k i j : Nat), findHeaderAux rows k = some (i, j) →
      k ≤ i ∧ i - k < rows.length ∧
        (rows.getD (i - k) []).findIdx? cellHasMarker = some j ∧
        ∀ d < i - k, (rows.getD d []).findIdx? cellHasMarker = none
  | [], k, i, j, h => by simp [findHeaderAux] at h
  | r :: rs, k, i, j, h => by
    rw [findHeaderAux] at h
    rcases hr : r.findIdx? cellHasMarker with _ | j2
    · rw [hr] at h
      obtain ⟨h1, h2, h3, h4⟩ := findHeaderAux_spec rs (k + 1) i j h
      refine ⟨by omega, by simp; omega, ?_, ?_⟩
      · have : i - k = (i - (k + 1)) + 1 := by omega
        rw [this, List.getD_cons_succ]
        exact h3
      · intro d hd
        cases d with
        | zero => simpa using hr
        | succ d2 =>
          rw [List.getD_cons_succ]
          exact h4 d2 (by omega)
    · rw [hr] at h
      have hik : k = i ∧ j2 = j := by
        have := h
        simp at this
        exact this
      obtain ⟨hik1, hjj⟩ := hik
      subst hik1
      subst hjj
      refine ⟨le_rfl, by simp, ?_, ?_⟩
      · simpa using hr
      · intro d hd
        omega

/-- The header scan picks exactly the first marker cell (rows top-to-bottom,
cells left-to-right) among the rows it scans. -/
lemma findHeader_spec (rows : List (List PCell)) (i j : Nat)
    (h : findHeader rows = some (i, j)) :
    i < rows.length ∧
    cellHasMarker ((rows.getD i []).getD j PCell.nan) = true ∧
    (∀ j2 < j, cellHasMarker ((rows.getD i []).getD j2 PCell.nan) = false) ∧
    (∀ i2 < i, ∀ c ∈ rows.getD i2 [], cellHasMarker c = false) := by
  obtain ⟨h1, h2, h3, h4⟩ := findHeaderAux_spec rows 0 i j h
  rw [Nat.sub_zero] at h2 h3 h4
  obtain ⟨g1, g2, g3, g4⟩ := findIdx?_some_spec cellHasMarker (rows.getD i []) 0 j h3
  rw [Nat.sub_zero] at g3 g4
  refine ⟨h2, g3, ?_, ?_⟩
  · intro j2 hj2
    exact g4 j2 (by omega)
  · intro i2 hi2 c hc
    exact findIdx?_none_spec cellHasMarker (rows.getD i2 []) 0 (h4 i2 hi2) c hc

/-! ### Attendance partition helpers -/

lemma att_partition (sid : Nat) :
    ∀ l : List AttRow,
      (l.filter (fun a => a.studentId = sid)).length =
        (l.filter (fun a => a.studentId = sid ∧ a.status = AttStatus.present)).length +
        (l.filter (fun a => a.studentId = sid ∧ a.status = AttStatus.absent)).length +
        (l.filter (fun a => a.studentId = sid ∧ a.status = AttStatus.absentJustifie)).length
  | [] => rfl
  | a :: l => by
    have ih := att_partition sid l
    by_cases hsid : a.studentId = sid <;> rcases hst : a.status with _ | _ | _ <;>
      simp [List.filter_cons, hsid, hst] at ih ⊢ <;> omega

lemma sum_filter_nonzero : ∀ l : List Nat, ((l.filter (fun x => x ≠ 0)).sum) = l.sum
  | [] => rfl
  | x :: l => by
    have ih := sum_filter_nonzero l
    by_cases hx : x = 0
    · rw [List.filter_cons, if_neg (by simp [hx])]
      rw [ih, hx, List.sum_cons]
      omega
    · rw [List.filter_cons, if_pos (by simpa using hx)]
      rw [List.sum_cons, List.sum_cons, ih]

end STrack



namespace STrack

/-! ### Attendance dictionary lookups -/

lemma dist_lookup (db : DB) (sid : Nat) (stat : AttStatus) :
    (((attendanceDistOf db sid).find? (fun p => p.1 = stat)).map (fun p => p.2)).getD 0 =
      (db.attendance.filter (fun a => a.studentId = sid ∧ a.status = stat)).length := by
  unfold attendanceDistOf
  simp only [List.map_cons, List.map_nil]
  rcases stat
  all_goals
    obtain ⟨cP, hcP⟩ : ∃ x, (db.attendance.filter
      (fun a => a.studentId = sid ∧ a.status = AttStatus.present)).length = x := ⟨_, rfl⟩
    obtain ⟨cA, hcA⟩ : ∃ x, (db.attendance.filter
      (fun a => a.studentId = sid ∧ a.status = AttStatus.absent)).length = x := ⟨_, rfl⟩
    obtain ⟨cJ, hcJ⟩ : ∃ x, (db.attendance.filter
      (fun a => a.studentId = sid ∧ a.status = AttStatus.absentJustifie)).length = x := ⟨_, rfl⟩
    rw [hcP, hcA, hcJ]
    by_cases h1 : cP = 0 <;> by_cases h2 : cA = 0 <;> by_cases h3 : cJ = 0 <;>
      simp [List.filter_cons, List.find?, h1, h2, h3]

lemma dist_sum (db : DB) (sid : Nat) :
    ((attendanceDistOf db sid).map (fun p => p.2)).sum =
      (db.attendance.filter (fun a => a.studentId = sid)).length := by
  have hpart := att_partition sid db.attendance
  unfold attendanceDistOf
  simp only [List.map_cons, List.map_nil]
  obtain ⟨cP, hcP⟩ : ∃ x, (db.attendance.filter
    (fun a => a.studentId = sid ∧ a.status = AttStatus.present)).length = x := ⟨_, rfl⟩
  obtain ⟨cA, hcA⟩ : ∃ x, (db.attendance.filter
    (fun a => a.studentId = sid ∧ a.status = AttStatus.absent)).length = x := ⟨_, rfl⟩
  obtain ⟨cJ, hcJ⟩ : ∃ x, (db.attendance.filter
    (fun a => a.studentId = sid ∧ a.status = AttStatus.absentJustifie)).length = x := ⟨_, rfl⟩
  rw [hcP, hcA, hcJ] at hpart ⊢
  by_cases h1 : cP = 0 <;> by_cases h2 : cA = 0 <;> by_cases h3 : cJ = 0 <;>
    simp [List.filter_cons, h1, h2, h3] <;> omega

end STrack

namespace STrack

/-- C10: validate_score is total over None, string, int, and float arguments —
it returns an (ok, reason) pair without raising (non-numeric strings fail via
the handled ValueError) — but its exception handling covers only ValueError,
so for an argument of any other type the float conversion raises a TypeError
that escapes the function instead of producing a failure result. -/
theorem c10_validate_score_totality :
    (∃ r, validate_score PyVal.none = Except.ok r) ∧
    (∀ s : String, ∃ r, validate_score (PyVal.str s) = Except.ok r) ∧
    (∀ n : Int, ∃ r, validate_score (PyVal.int n) = Except.ok r) ∧
    (∀ q : ℚ, ∃ r, validate_score (PyVal.float q) = Except.ok r) ∧
    (∀ tag : String, validate_score (PyVal.other tag) = Except.error PyErr.typeError) := by
  refine ⟨⟨(true, ""), rfl⟩, ?_, ?_, ?_, ?_⟩
  · intro s
    by_cases hs : s = ""
    · subst hs
      exact ⟨(true, ""), rfl⟩
    · unfold validate_score
      rw [if_neg (by simp [hs])]
      rcases hp : parseFloatQ s with _ | q
      · refine ⟨(false, "Score must be a number"), ?_⟩
        simp only [pyFloat, hp]
      · by_cases hr : q < Config.MIN_SCORE ∨ q > Config.MAX_SCORE
        · refine ⟨(false, "Score must be between 0 and 20"), ?_⟩
          simp only [pyFloat, hp]
          rw [if_pos hr]
        · refine ⟨(true, ""), ?_⟩
          simp only [pyFloat, hp]
          rw [if_neg hr]
  · intro n
    unfold validate_score
    rw [if_neg (by simp)]
    by_cases hr : (n : ℚ) < Config.MIN_SCORE ∨ (n : ℚ) > Config.MAX_SCORE
    · refine ⟨(false, "Score must be between 0 and 20"), ?_⟩
      simp only [pyFloat]
      rw [if_pos hr]
    · refine ⟨(true, ""), ?_⟩
      simp only [pyFloat]
      rw [if_neg hr]
  · intro q
    unfold validate_score
    rw [if_neg (by simp)]
    by_cases hr : q < Config.MIN_SCORE ∨ q > Config.MAX_SCORE
    · refine ⟨(false, "Score must be between 0 and 20"), ?_⟩
      simp only [pyFloat]
      rw [if_pos hr]
    · refine ⟨(true, ""), ?_⟩
      simp only [pyFloat]
      rw [if_neg hr]
  · intro tag
    rfl

/-- C1: the claim says delete_student(id) removes the Student row and all
Attendance, Mark, and Comment rows referencing that student, and that a
subsequent stats call on the id returns absent.  On the store `dbC1`
(one student with one attendance row, one mark row and one comment row),
`DELETE FROM students` removes the student row and a later stats call does
return absent — but, because the source never enables SQLite foreign-key
enforcement (`PRAGMA foreign_keys` stays OFF on every connection it opens),
the declared `ON DELETE CASCADE` clauses do not fire and all three child
rows survive, contradicting the claim and the code's own docstring
("Delete a student and all related records"). -/
theorem c1_delete_cascade_code_bug :
    (deleteStudent dbC1 1).students = [] ∧
    getStudentStats (deleteStudent dbC1 1) 1 = none ∧
    (deleteStudent dbC1 1).attendance = dbC1.attendance ∧ dbC1.attendance ≠ [] ∧
    (deleteStudent dbC1 1).marks = dbC1.marks ∧ dbC1.marks ≠ [] ∧
    (deleteStudent dbC1 1).comments = dbC1.comments ∧ dbC1.comments ≠ [] := by
  refine ⟨by decide, by decide, rfl, by decide, rfl, ?_, rfl, by decide⟩
  intro h
  simp [dbC1] at h

end STrack

namespace STrack

/-- C9: for an existing student id, get_student_stats returns the count, the
average (rounded to 2 decimal places), the max and the min of the student's
non-NULL mark scores (all zero with no marks), the per-status attendance
counts, and attendance rate = present / total × 100 rounded to 1 decimal
place (0 with no attendance rows); marks {12, 16, 20} with attendance
{Present: 3, Absent: 1} give count 3, avg 16.0, max 20, min 12 and rate
75.0; a nonexistent id gives absent (None). -/
theorem c9_stats_spec :
    (∀ (db : DB) (sid : Nat), db.students.find? (fun s => s.sid = sid) = none →
      getStudentStats db sid = none) ∧
    (∀ (db : DB) (sid : Nat) (st : Student),
      db.students.find? (fun s => s.sid = sid) = some st →
      ∃ r, getStudentStats db sid = some r ∧
        r.student = st ∧
        r.totalMarks =
          (db.marks.filterMap (fun m => if m.studentId = sid then m.score else none)).length ∧
        ((db.marks.filterMap (fun m => if m.studentId = sid then m.score else none)) = [] →
          r.avgScore = 0 ∧ r.maxScore = 0 ∧ r.minScore = 0) ∧
        ((db.marks.filterMap (fun m => if m.studentId = sid then m.score else none)) ≠ [] →
          r.avgScore = roundq 2
            ((db.marks.filterMap (fun m => if m.studentId = sid then m.score else none)).sum /
              (((db.marks.filterMap (fun m => if m.studentId = sid then m.score else none)).length : ℚ))) ∧
          r.maxScore ∈ (db.marks.filterMap (fun m => if m.studentId = sid then m.score else none)) ∧
          r.minScore ∈ (db.marks.filterMap (fun m => if m.studentId = sid then m.score else none))) ∧
        (∀ x ∈ (db.marks.filterMap (fun m => if m.studentId = sid then m.score else none)),
          r.minScore ≤ x ∧ x ≤ r.maxScore) ∧
        (∀ stat : AttStatus,
          (((r.attendanceDist.find? (fun p => p.1 = stat)).map (fun p => p.2)).getD 0) =
            (db.attendance.filter (fun a => a.studentId = sid ∧ a.status = stat)).length) ∧
        r.totalClasses = (db.attendance.filter (fun a => a.studentId = sid)).length ∧
        r.presentCount =
          (db.attendance.filter
            (fun a => a.studentId = sid ∧ a.status = AttStatus.present)).length ∧
        (r.totalClasses = 0 → r.attendanceRate = 0) ∧
        (r.totalClasses ≠ 0 →
          r.attendanceRate = roundq 1 ((r.presentCount : ℚ) / (r.totalClasses : ℚ) * 100))) ∧
    (getStudentStats dbStats 1 = some
      ⟨⟨1, "123456789012", "Doe", "Jo", "", "G", 0, 0⟩, 3, 16, 20, 12, 4, 3, 75,
       [(AttStatus.present, 3), (AttStatus.absent, 1)]⟩) ∧
    getStudentStats dbStats 99 = none := by
  refine ⟨?_, ?_, by with_unfolding_all decide, by decide⟩
  · intro db sid h
    unfold getStudentStats
    rw [h]
  · intro db sid st hfind
    have hstats : getStudentStats db sid = some
        { student := st
          totalMarks :=
            (db.marks.filterMap (fun m => if m.studentId = sid then m.score else none)).length
          avgScore :=
            if (db.marks.filterMap (fun m => if m.studentId = sid then m.score else none)).isEmpty
            then 0
            else
              if (db.marks.filterMap (fun m => if m.studentId = sid then m.score else none)).sum /
                  (((db.marks.filterMap
                    (fun m => if m.studentId = sid then m.score else none)).length : ℚ)) = 0
              then 0
              else roundq 2
                ((db.marks.filterMap (fun m => if m.studentId = sid then m.score else none)).sum /
                  (((db.marks.filterMap
                    (fun m => if m.studentId = sid then m.score else none)).length : ℚ)))
          maxScore :=
            ((db.marks.filterMap (fun m => if m.studentId = sid then m.score else none)).max?).getD 0
          minScore :=
            ((db.marks.filterMap (fun m => if m.studentId = sid then m.score else none)).min?).getD 0
          totalClasses := ((attendanceDistOf db sid).map (fun p => p.2)).sum
          presentCount :=
            (((attendanceDistOf db sid).find?
              (fun p => p.1 = AttStatus.present)).map (fun p => p.2)).getD 0
          attendanceRate := roundq 1
            (if 0 < ((attendanceDistOf db sid).map (fun p => p.2)).sum then
              ((((((attendanceDistOf db sid).find?
                  (fun p => p.1 = AttStatus.present)).map (fun p => p.2)).getD 0 : Nat)) : ℚ) /
                (((((attendanceDistOf db sid).map (fun p => p.2)).sum : Nat)) : ℚ) * 100
             else 0)
          attendanceDist := attendanceDistOf db sid } := by
      simp only [getStudentStats, hfind]
    refine ⟨_, hstats, rfl, rfl, ?_, ?_, ?_, ?_, ?_, ?_, ?_, ?_⟩
    · intro h0
      rw [h0]
      refine ⟨by simp, by simp, by simp⟩
    · intro hne
      refine ⟨?_, ?_, ?_⟩
      · show (if _ then (0 : ℚ) else _) = _
        rw [if_neg (by simpa using hne)]
        by_cases hz : (db.marks.filterMap (fun m => if m.studentId = sid then m.score else none)).sum /
            (((db.marks.filterMap
              (fun m => if m.studentId = sid then m.score else none)).length : ℚ)) = 0
        · rw [if_pos hz, hz, roundq_zero]
        · rw [if_neg hz]
      · show ((db.marks.filterMap (fun m => if m.studentId = sid then m.score else none)).max?).getD 0 ∈ _
        rcases hmax : (db.marks.filterMap
            (fun m => if m.studentId = sid then m.score else none)).max? with _ | m
        · exact absurd (List.max?_eq_none_iff.mp hmax) hne
        · rw [hmax]
          exact List.max?_mem max_choice hmax
      · show ((db.marks.filterMap (fun m => if m.studentId = sid then m.score else none)).min?).getD 0 ∈ _
        rcases hmin : (db.marks.filterMap
            (fun m => if m.studentId = sid then m.score else none)).min? with _ | m
        · exact absurd (List.min?_eq_none_iff.mp hmin) hne
        · rw [hmin]
          exact List.min?_mem min_choice hmin
    · intro x hx
      have hne : (db.marks.filterMap (fun m => if m.studentId = sid then m.score else none)) ≠ [] := by
        intro h0
        rw [h0] at hx
        simp at hx
      constructor
      · show ((db.marks.filterMap (fun m => if m.studentId = sid then m.score else none)).min?).getD 0 ≤ x
        rcases hmin : (db.marks.filterMap
            (fun m => if m.studentId = sid then m.score else none)).min? with _ | m
        · exact absurd (List.min?_eq_none_iff.mp hmin) hne
        · rw [hmin]
          exact (List.le_min?_iff (fun _ _ _ => le_min_iff) hmin).mp le_rfl x hx
      · show x ≤ ((db.marks.filterMap (fun m => if m.studentId = sid then m.score else none)).max?).getD 0
        rcases hmax : (db.marks.filterMap
            (fun m => if m.studentId = sid then m.score else none)).max? with _ | m
        · exact absurd (List.max?_eq_none_iff.mp hmax) hne
        · rw [hmax]
          exact (List.max?_le_iff (fun _ _ _ => max_le_iff) hmax).mp le_rfl x hx
    · intro stat
      exact dist_lookup db sid stat
    · exact dist_sum db sid
    · exact dist_lookup db sid AttStatus.present
    · intro h0
      show roundq 1 _ = 0
      rw [show (((attendanceDistOf db sid).map (fun p => p.2)).sum) = 0 from h0]
      rw [if_neg (by omega)]
      exact roundq_zero 1
    · intro h0
      show roundq 1 _ = _
      rw [if_pos (Nat.pos_of_ne_zero h0)]

end STrack

namespace STrack

/-- C9 witness: the stats specification applied to the concrete store
`dbStats` — student id 99 does not exist and is reported absent, student id 1
exists and gets a stats record. -/
theorem c9_stats_spec_witness :
    getStudentStats dbStats 99 = none ∧ (∃ r, getStudentStats dbStats 1 = some r) := by
  refine ⟨c9_stats_spec.1 dbStats 99 (by decide), ?_⟩
  obtain ⟨r, hr, _⟩ := c9_stats_spec.2.1 dbStats 1
    ⟨1, "123456789012", "Doe", "Jo", "", "G", 0, 0⟩ (by decide)
  exact ⟨r, hr⟩

/-- C4 (amended): get_students_paginated reports
total_pages = ceil(total_count / per_page) under 1-indexed pagination and a
page greater than total_pages yields an empty sequence; but a request for
page 0 (or any page ≤ 0) computes a negative OFFSET, which SQLite treats as
zero, so it returns the same students as page 1 — not an empty sequence. -/
theorem c4_pagination_amended (db : DB) (g : String) (page : Int) (P : Nat) (hP : 0 < P) :
    (getStudentsPaginated db g page P).totalCount =
      (db.students.filter (fun s => s.groupe = g)).length ∧
    (getStudentsPaginated db g page P).totalPages =
      ⌈(((getStudentsPaginated db g page P).totalCount : ℚ)) / (P : ℚ)⌉₊ ∧
    (((getStudentsPaginated db g page P).totalPages : Int) < page →
      (getStudentsPaginated db g page P).students = []) ∧
    (page ≤ 0 →
      (getStudentsPaginated db g page P).students = (getStudentsPaginated db g 1 P).students) := by
  have h0 : ¬ P = 0 := by omega
  unfold getStudentsPaginated
  simp only [if_neg h0]
  obtain ⟨all, hall⟩ : ∃ x,
      List.insertionSort nameOrder (db.students.filter (fun s => s.groupe = g)) = x := ⟨_, rfl⟩
  rw [hall]
  have hlen : all.length = (db.students.filter (fun s => s.groupe = g)).length := by
    rw [← hall]
    exact (List.perm_insertionSort _ _).length_eq
  refine ⟨hlen, ?_, ?_, ?_⟩
  · show (all.length + P - 1) / P = ⌈((all.length : ℚ)) / (P : ℚ)⌉₊
    exact ceilDiv_eq_natCeil all.length P hP
  · intro hpage
    show ((all.drop ((page - 1) * (P : Int)).toNat).take P) = []
    have htp : (((all.length + P - 1) / P : Nat) : Int) < page := hpage
    have hql : ((all.length : Int)) ≤ (page - 1) * (P : Int) := by
      have hmul : (all.length : Int) ≤ (((all.length + P - 1) / P : Nat) : Int) * (P : Int) := by
        exact_mod_cast ceil_mul_ge all.length P hP
      calc (all.length : Int) ≤ (((all.length + P - 1) / P : Nat) : Int) * (P : Int) := hmul
        _ ≤ (page - 1) * (P : Int) := by
            apply mul_le_mul_of_nonneg_right (by omega) (by positivity)
    have hnn : (0 : Int) ≤ (page - 1) * (P : Int) := le_trans (by positivity) hql
    have hge : all.length ≤ ((page - 1) * (P : Int)).toNat := (Int.le_toNat hnn).mpr hql
    rw [List.drop_eq_nil_of_le hge]
    simp
  · intro hpage
    show ((all.drop ((page - 1) * (P : Int)).toNat).take P) =
      ((all.drop ((1 - 1) * (P : Int)).toNat).take P)
    have hmul : (page - 1) * (P : Int) ≤ 0 := by
      have := mul_le_mul_of_nonneg_right (show page - 1 ≤ (0 : Int) by omega)
        (show (0 : Int) ≤ (P : Int) by positivity)
      simpa using this
    rw [Int.toNat_of_nonpos hmul]
    norm_num

/-- C4 counterexample: on a store with one student in group G, requesting
page 0 with page size 50 returns that student — the same non-empty sequence
as page 1 — whereas the claim says page 0 returns an empty sequence. -/
theorem c4_page_zero_counterexample :
    (getStudentsPaginated dbPage1 "G" 0 50).students ≠ [] ∧
    (getStudentsPaginated dbPage1 "G" 0 50).students =
      (getStudentsPaginated dbPage1 "G" 1 50).students := by decide

/-- C4 witness: the amended pagination facts at a concrete store of three
students in group G with page size 2: total 3, ceil(3/2) = 2 pages, and page
3 (out of range) is empty. -/
theorem c4_pagination_amended_witness :
    0 < 2 ∧
    (getStudentsPaginated dbPage3 "G" 3 2).totalCount = 3 ∧
    (getStudentsPaginated dbPage3 "G" 3 2).totalPages = 2 ∧
    (getStudentsPaginated dbPage3 "G" 3 2).students = [] := by
  have h := c4_pagination_amended dbPage3 "G" 3 2 (by decide)
  refine ⟨by decide, by decide, by decide, h.2.2.1 (by decide)⟩


/-- C2: after any import into a store with at most one student row per
matricule, the store again has at most one student row per matricule, and
importing two workbooks sharing the matricule 123456789012 but with
different names leaves exactly one student row carrying the values of the
second (most recent) import: last-write-wins upsert keyed by matricule. -/
theorem c2_upsert_uniqueness :
    (∀ (db : DB) (wb : List (String × List (List PCell))) (g : Option String) (hs : Bool)
      (t : Nat), uniqueByMatricule db.students →
      uniqueByMatricule (importFromExcel wb g hs t db).db.students) ∧
    (importFromExcel wbNew none false 1
        (importFromExcel wbOld none false 0 emptyDB).db).db.students.map Student.content =
      [⟨"123456789012", "New", "B", "", ""⟩] := by
  constructor
  · intro db wb g hs t h
    have hmap : (contentOf (importFromExcel wb g hs t db).db).Pairwise
        (fun a b => a.matricule ≠ b.matricule) := by
      rw [importFromExcel_content]
      apply applyOps_pairwise
      unfold contentOf
      rw [List.pairwise_map]
      exact h
    unfold contentOf at hmap
    rw [List.pairwise_map] at hmap
    exact hmap
  · decide

/-- C2 witness: the uniqueness preservation applied at the empty store and
the workbook `wbOld`. -/
theorem c2_upsert_uniqueness_witness :
    uniqueByMatricule (importFromExcel wbOld none false 0 emptyDB).db.students :=
  c2_upsert_uniqueness.1 emptyDB wbOld none false 0 List.Pairwise.nil

/-- C3 counterexample: re-importing the unchanged workbook `wbOld` does NOT
leave every field of the student row unchanged — `INSERT OR REPLACE` deletes
the conflicting row and inserts a fresh one, so the row id and both
timestamps change on the second import. -/
theorem c3_reimport_counterexample :
    (importFromExcel wbOld none false 1
        (importFromExcel wbOld none false 0 emptyDB).db).db.students ≠
      (importFromExcel wbOld none false 0 emptyDB).db.students := by decide

/-- C3 (amended): re-importing an unchanged workbook is idempotent up to
row ids and timestamps: the student count and all imported field values
(matricule, last name, first name, section, group) are unchanged by the
second import; the row id, created-at and updated-at columns are not
preserved (see the counterexample). -/
theorem c3_reimport_amended (wb : List (String × List (List PCell))) (g : Option String)
    (hs : Bool) (t t2 : Nat) (db : DB) :
    contentOf (importFromExcel wb g hs t2 (importFromExcel wb g hs t db).db).db =
      contentOf (importFromExcel wb g hs t db).db ∧
    (importFromExcel wb g hs t2 (importFromExcel wb g hs t db).db).db.students.length =
      (importFromExcel wb g hs t db).db.students.length := by
  have h2 := importFromExcel_content wb g hs t2 ((importFromExcel wb g hs t db).db)
  have h1 := importFromExcel_content wb g hs t db
  have hmain : contentOf (importFromExcel wb g hs t2 (importFromExcel wb g hs t db).db).db =
      contentOf (importFromExcel wb g hs t db).db := by
    rw [h2, h1, applyOps_idem]
  refine ⟨hmain, ?_⟩
  have := congrArg List.length hmain
  simpa [contentOf] using this



/-! ### Trimming is idempotent: a stored trimmed value has no surrounding
whitespace left. -/

lemma dropWhile_idem (p : Char → Bool) : ∀ l : List Char,
    (l.dropWhile p).dropWhile p = l.dropWhile p
  | [] => rfl
  | c :: cs => by
    by_cases h : p c = true
    · rw [List.dropWhile_cons, if_pos h, dropWhile_idem p cs]
    · rw [List.dropWhile_cons, if_neg h, List.dropWhile_cons, if_neg h]

lemma head?_dropWhile (p : Char → Bool) : ∀ (l : List Char) (c : Char),
    (l.dropWhile p).head? = some c → p c = false
  | [], c, h => by simp [List.dropWhile] at h
  | a :: t, c, h => by
    by_cases ha : p a = true
    · rw [List.dropWhile_cons, if_pos ha] at h
      exact head?_dropWhile p t c h
    · rw [List.dropWhile_cons, if_neg ha] at h
      simp only [List.head?_cons, Option.some.injEq] at h
      rw [← h]
      exact Bool.eq_false_iff.mpr ha

lemma dropWhile_eq_self_of_head? (p : Char → Bool) (l : List Char)
    (h : ∀ c, l.head? = some c → p c = false) : l.dropWhile p = l := by
  cases l with
  | nil => rfl
  | cons a t =>
    rw [List.dropWhile_cons, if_neg]
    rw [h a rfl]
    simp

lemma getLast?_dropWhile (p : Char → Bool) (l : List Char)
    (h : l.dropWhile p ≠ []) : (l.dropWhile p).getLast? = l.getLast? := by
  conv_rhs => rw [← List.takeWhile_append_dropWhile (p := p) (l := l)]
  rw [List.getLast?_append_of_ne_nil _ h]

lemma pyStrip_idem (s : String) : pyStrip (pyStrip s) = pyStrip s := by
  unfold pyStrip
  show String.mk _ = String.mk _
  congr 1
  show ((((((s.data.dropWhile Char.isWhitespace).reverse.dropWhile
      Char.isWhitespace).reverse).dropWhile Char.isWhitespace).reverse).dropWhile
      Char.isWhitespace).reverse = _
  have hA := dropWhile_idem Char.isWhitespace s.data
  have hY : (((s.data.dropWhile Char.isWhitespace).reverse.dropWhile
      Char.isWhitespace).reverse).dropWhile Char.isWhitespace =
      ((s.data.dropWhile Char.isWhitespace).reverse.dropWhile Char.isWhitespace).reverse := by
    apply dropWhile_eq_self_of_head?
    intro c hc
    by_cases hz : (s.data.dropWhile Char.isWhitespace).reverse.dropWhile Char.isWhitespace = []
    · rw [hz] at hc
      simp at hc
    · rw [List.head?_reverse, getLast?_dropWhile Char.isWhitespace _ hz,
        List.getLast?_reverse] at hc
      exact head?_dropWhile Char.isWhitespace s.data c hc
  rw [hY, List.reverse_reverse, dropWhile_idem]

end STrack

namespace STrack

/-- C5 counterexample: in the workbook `wbNanSection` the Section column is
present but the data cell under it is empty (pandas NaN); the claim says such
a missing cell is stored as the empty string, but the code applies Python
`str` to the NaN placeholder first, so the stored section value is the
literal text "nan". -/
theorem c5_missing_cell_counterexample :
    getByLabel (colsOf wbNanSection) ((dataRowsOf wbNanSection).getD 0 []) "Section" =
      some PCell.nan ∧
    (contentOf (importFromExcel wbNanSection none false 0 emptyDB).db).map SContent.sect =
      ["nan"] := by decide

/-- C5 (amended): every field value a successful row ingestion stores is
trimmed of surrounding whitespace (a fixed point of stripping); a cell whose
column label is absent from the header is stored as the empty string; a
supplied non-empty group override replaces the group value of the row, while
a supplied but empty override is ignored (Python truthiness); however an
empty cell under a present column is stored as the text "nan", not as the
empty string (see the counterexample).  Concretely, importing `wbPadded`
trims the padded matricule and name cells, stores the absent section as "",
and the override "G9" replaces the group "old" from the sheet. -/
theorem c5_trim_override_amended :
    (∀ (cols row : List PCell) (g : Option String) (r : SContent),
      rowOp cols g row = some r →
      pyStrip r.nom = r.nom ∧ pyStrip r.prenom = r.prenom ∧ pyStrip r.sect = r.sect ∧
      (getByLabel cols row "Nom" = none → r.nom = "") ∧
      (getByLabel cols row "Section" = none → r.sect = "") ∧
      (∀ gn, g = some gn → gn ≠ "" → r.groupe = gn) ∧
      (g = none → pyStrip r.groupe = r.groupe)) ∧
    contentOf (importFromExcel wbPadded (some "G9") false 0 emptyDB).db =
      [⟨"123456789012", "Dupont", "Alice", "", "G9"⟩] ∧
    contentOf (importFromExcel wbPadded none false 0 emptyDB).db =
      [⟨"123456789012", "Dupont", "Alice", "", "old"⟩] ∧
    contentOf (importFromExcel wbPadded (some "") false 0 emptyDB).db =
      [⟨"123456789012", "Dupont", "Alice", "", "old"⟩] := by
  refine ⟨?_, by decide, by decide, by decide⟩
  intro cols row g r h
  rcases hm : getByLabel cols row "Matricule" with _ | cm
  · simp only [rowOp, hm] at h
    exact absurd h (by simp)
  · simp only [rowOp, hm] at h
    by_cases hna : cm.isna = true
    · rw [if_pos hna] at h
      exact absurd h (by simp)
    · rw [if_neg hna] at h
      by_cases hv : (validate_matricule (pyStrip cm.pyStr)).1 = false
      · rw [if_pos hv] at h
        exact absurd h (by simp)
      · rw [if_neg hv] at h
        have hr := (Option.some.injEq _ _).mp h
        rw [← hr]
        refine ⟨pyStrip_idem _, pyStrip_idem _, pyStrip_idem _, ?_, ?_, ?_, ?_⟩
        · intro hnom
          show pyStrip (getByLabelD cols row "Nom") = ""
          rw [getByLabelD, hnom]
          decide
        · intro hsec
          show pyStrip (getByLabelD cols row "Section") = ""
          rw [getByLabelD, hsec]
          decide
        · intro gn hgn hne
          show applyOverride g (pyStrip (getByLabelD cols row "Groupe")) = gn
          rw [hgn, applyOverride, if_neg hne]
        · intro hgnone
          show pyStrip (applyOverride g (pyStrip (getByLabelD cols row "Groupe"))) =
            applyOverride g (pyStrip (getByLabelD cols row "Groupe"))
          rw [hgnone, applyOverride, pyStrip_idem]

/-- C5 witness: the row-field properties applied at a one-column header with
a padded matricule cell and no name, section or group columns. -/
theorem c5_trim_override_amended_witness :
    rowOp [PCell.str "Matricule"] none [PCell.str " 123456789012 "] =
      some ⟨"123456789012", "", "", "", ""⟩ ∧
    (pyStrip "" = "" ∧ pyStrip "" = "" ∧ pyStrip "" = "" ∧
      (getByLabel [PCell.str "Matricule"] [PCell.str " 123456789012 "] "Nom" = none →
        "" = "") ∧
      (getByLabel [PCell.str "Matricule"] [PCell.str " 123456789012 "] "Section" = none →
        "" = "") ∧
      (∀ gn, (none : Option String) = some gn → gn ≠ "" → "" = gn) ∧
      ((none : Option String) = none → pyStrip "" = "")) :=
  ⟨by decide,
   c5_trim_override_amended.1 [PCell.str "Matricule"] [PCell.str " 123456789012 "] none
     ⟨"123456789012", "", "", "", ""⟩ (by decide)⟩

/-- C6 counterexample: `cleanSheet` carries the identifier marker in the very
first row of the file, yet the import fails to find the identifier column:
`pd.read_excel` consumes the first sheet row as the provisional pandas
header, so the top-to-bottom scan never sees it — the claim that the scan
runs over the file rows is wrong for a header in row one. -/
theorem c6_first_row_header_counterexample :
    findHeaderAux cleanSheet 0 = some (0, 0) ∧
    (importSheet cleanSheet none false 0 emptyDB).ok = false ∧
    (importSheet cleanSheet none false 0 emptyDB).db = emptyDB := by decide

/-- C6 (amended): over the rows the scan actually visits — the file rows
minus the first, which the spreadsheet loader consumes as its provisional
header — the detected position (i, j) is the first row top-to-bottom holding
a marker cell, and j is the leftmost marker cell of that row; a sheet with
two banner rows and the identifier column in position 3 is imported
correctly. -/
theorem c6_header_scan_amended :
    (∀ (rows : List (List PCell)) (i j : Nat),
      findHeader rows = some (i, j) →
      i < rows.length ∧
      cellHasMarker ((rows.getD i []).getD j PCell.nan) = true ∧
      (∀ j2 < j, cellHasMarker ((rows.getD i []).getD j2 PCell.nan) = false) ∧
      (∀ i2 < i, ∀ c ∈ rows.getD i2 [], cellHasMarker c = false)) ∧
    findHeader bannerSheet.tail = some (1, 2) ∧
    (importSheet bannerSheet none false 0 emptyDB).ok = true ∧
    contentOf (importSheet bannerSheet none false 0 emptyDB).db =
      [⟨"123456789012", "Dupont", "Alice", "", ""⟩] := by
  refine ⟨findHeader_spec, by decide, by decide, by decide⟩

/-- C6 witness: the scan characterization applied at the banner fixture:
the detected header is row 1 of the scanned rows, column 2, no earlier cell
holds the marker. -/
theorem c6_header_scan_amended_witness :
    findHeader bannerSheet.tail = some (1, 2) ∧
    (1 < bannerSheet.tail.length ∧
     cellHasMarker ((bannerSheet.tail.getD 1 []).getD 2 PCell.nan) = true ∧
     (∀ j2 < 2, cellHasMarker ((bannerSheet.tail.getD 1 []).getD j2 PCell.nan) = false) ∧
     (∀ i2 < 1, ∀ c ∈ bannerSheet.tail.getD i2 [], cellHasMarker c = false)) :=
  ⟨by decide, c6_header_scan_amended.1 bannerSheet.tail 1 2 (by decide)⟩



/-- C7: per-row validation failures are soft.  Whenever the structural stage
passes (sheet found, marker found, required labels bound), the import
returns success, the imported count is the number of valid rows, and the
per-row error list has one entry per invalid row — even when some rows
failed; a structural failure, and only a structural failure, returns overall
failure with zero imported rows and the store untouched. -/
theorem c7_soft_row_errors (wb : List (String × List (List PCell))) (g : Option String)
    (hs : Bool) (t : Nat) (db : DB) :
    (structuralOk wb = true →
      (importFromExcel wb g hs t db).ok = true ∧
      (importFromExcel wb g hs t db).count = validCountOf wb g ∧
      (importFromExcel wb g hs t db).errors.length = invalidCountOf wb) ∧
    (structuralOk wb = false →
      (importFromExcel wb g hs t db).ok = false ∧
      (importFromExcel wb g hs t db).count = 0 ∧
      (importFromExcel wb g hs t db).db = db ∧
      (importFromExcel wb g hs t db).errors = []) := by
  constructor
  · intro h
    obtain ⟨h1, h2, h3, _⟩ := importFromExcel_success_spec wb g hs t db h
    exact ⟨h1, h2, h3⟩
  · intro h
    exact importFromExcel_fail_spec wb g hs t db h

/-- C7 witness: `wbMixed` passes the structural stage with one invalid row
between two valid rows; the import succeeds, imports the two valid rows and
records one per-row error. -/
theorem c7_soft_row_errors_witness :
    structuralOk wbMixed = true ∧
    validCountOf wbMixed none = 2 ∧ invalidCountOf wbMixed = 1 ∧
    ((importFromExcel wbMixed none false 0 emptyDB).ok = true ∧
     (importFromExcel wbMixed none false 0 emptyDB).count = validCountOf wbMixed none ∧
     (importFromExcel wbMixed none false 0 emptyDB).errors.length = invalidCountOf wbMixed) :=
  ⟨by decide, by decide, by decide,
   (c7_soft_row_errors wbMixed none false 0 emptyDB).1 (by decide)⟩

/-- An interpolated progress value for a row index below the total lies
within the unit interval. -/
lemma mid_range (i total : Nat) (h : i < total) :
    0 ≤ 2 / 10 + 7 / 10 * ((i : ℚ) / (total : ℚ)) ∧
    2 / 10 + 7 / 10 * ((i : ℚ) / (total : ℚ)) ≤ 1 := by
  have htotal : (0 : ℚ) < (total : ℚ) := by
    have : 0 < total := Nat.pos_of_ne_zero (by omega)
    exact_mod_cast this
  have hx0 : (0 : ℚ) ≤ (i : ℚ) / (total : ℚ) :=
    div_nonneg (by positivity) htotal.le
  have hx1 : (i : ℚ) / (total : ℚ) ≤ 1 := by
    rw [div_le_one htotal]
    exact_mod_cast h.le
  constructor <;> nlinarith

/-- C8 counterexample: over the eleven data rows of `wbEleven` (rows 0 and
10 invalid, rows 1–9 valid) the progress sink receives only the fixed
checkpoints 0.1, 0.2 and 1 — no ingestion-loop value at all — because the
every-10th-row report is skipped for any row that fails validation.  This
refutes the claim that the sink fires at least once every 10 data rows. -/
theorem c8_progress_counterexample :
    (dataRowsOf wbEleven).length = 11 ∧
    (importFromExcel wbEleven none true 0 emptyDB).count = 9 ∧
    (importFromExcel wbEleven none true 0 emptyDB).trace = [1 / 10, 2 / 10, 1] := by
  refine ⟨by decide, ?_, ?_⟩ <;> with_unfolding_all decide

/-- One loop iteration reports progress exactly when the row is successfully
upserted (its content outcome is `some`) and its 0-based index is a multiple
of 10. -/
lemma procRow_trace_exact (cols : List PCell) (g : Option String) (total t : Nat)
    (st : LoopSt) (idx : Nat) (row : List PCell) :
    (procRow cols g true total t st idx row).trace =
      st.trace ++ (if (rowOp cols g row).isSome && (idx % 10 == 0) then
        [2 / 10 + 7 / 10 * ((idx : ℚ) / (total : ℚ))] else []) := by
  rcases h : getByLabel cols row "Matricule" with _ | c
  · simp only [procRow, rowOp, h]
    simp
  · simp only [procRow, rowOp, h]
    by_cases hna : c.isna = true
    · simp [hna]
    · by_cases hv : (validate_matricule (pyStrip c.pyStr)).1 = false
      · simp [hna, hv]
      · by_cases hi : idx % 10 = 0
        · simp [hna, hv, hi]
        · simp [hna, hv, hi]

/-- The full ingestion loop's report sequence, exactly: one interpolated
value per successfully upserted row whose index is a multiple of 10, in row
order. -/
lemma runRows_trace_exact (cols : List PCell) (g : Option String) (total t : Nat) :
    ∀ (rows : List (List PCell)) (idx : Nat) (st : LoopSt),
      (runRows cols g true total t rows idx st).trace =
        st.trace ++ ((List.enumFrom idx rows).filter
            (fun p => (rowOp cols g p.2).isSome && (p.1 % 10 == 0))).map
            (fun p => 2 / 10 + 7 / 10 * ((p.1 : ℚ) / (total : ℚ)))
  | [], idx, st => by simp [runRows, List.enumFrom]
  | r :: rs, idx, st => by
    rw [runRows, runRows_trace_exact cols g total t rs (idx + 1)
      (procRow cols g true total t st idx r), procRow_trace_exact cols g total t st idx r]
    have he : List.enumFrom idx (r :: rs) = (idx, r) :: List.enumFrom (idx + 1) rs := rfl
    rw [he, List.filter_cons]
    by_cases hc : ((rowOp cols g r).isSome && (idx % 10 == 0)) = true
    · simp [hc]
    · rw [Bool.not_eq_true] at hc
      simp [hc]

/-- C8 (amended): on a structurally valid workbook with a progress sink, the
reported sequence is exactly 0.1 (after sheet load), 0.2 (after column
binding), then — in row order — one value 0.2 + 0.7·(idx/total) for each
successfully upserted row whose 0-based index idx is a multiple of 10, and
finally 1.0.  Rows skipped for a blank identifier and rows failing
validation report nothing, so the sink is not guaranteed to fire every 10
rows (see the counterexample).  Every reported value lies in [0, 1].
Without a sink no value is reported and the import behaves identically in
result, message, count, store and errors. -/
theorem c8_progress_amended (wb : List (String × List (List PCell))) (g : Option String)
    (t : Nat) (db : DB) (h : structuralOk wb = true) :
    (importFromExcel wb g true t db).trace =
      1 / 10 :: 2 / 10 ::
        ((((dataRowsOf wb).enum.filter
            (fun p => (rowOp (colsOf wb) g p.2).isSome && (p.1 % 10 == 0))).map
            (fun p => 2 / 10 + 7 / 10 *
              ((p.1 : ℚ) / (((dataRowsOf wb).length : ℚ))))) ++ [1]) ∧
    (∀ q ∈ (importFromExcel wb g true t db).trace, 0 ≤ q ∧ q ≤ 1) ∧
    (importFromExcel wb g false t db).trace = [] ∧
    (importFromExcel wb g false t db).ok = (importFromExcel wb g true t db).ok ∧
    (importFromExcel wb g false t db).message = (importFromExcel wb g true t db).message ∧
    (importFromExcel wb g false t db).count = (importFromExcel wb g true t db).count ∧
    (importFromExcel wb g false t db).db = (importFromExcel wb g true t db).db ∧
    (importFromExcel wb g false t db).errors = (importFromExcel wb g true t db).errors := by
  obtain ⟨sheet, hidx, mcol, hS, hH, hm⟩ := structuralOk_elim wb h
  have hR : dataRowsOf wb = sheet.tail.drop (hidx + 1) :=
    dataRowsOf_success wb sheet hidx mcol hS hH
  have hC : colsOf wb = sheet.tail.getD hidx [] :=
    colsOf_success wb sheet hidx mcol hS hH
  have htr : (importFromExcel wb g true t db).trace =
      1 / 10 :: 2 / 10 ::
        ((((dataRowsOf wb).enum.filter
            (fun p => (rowOp (colsOf wb) g p.2).isSome && (p.1 % 10 == 0))).map
            (fun p => 2 / 10 + 7 / 10 *
              ((p.1 : ℚ) / (((dataRowsOf wb).length : ℚ))))) ++ [1]) := by
    rw [importFromExcel_sheet wb g true t db sheet hS,
      importSheet_success sheet g true t db hidx mcol hH hm]
    show (runRows _ g true _ t _ 0 _).trace ++ (if true then [1] else []) = _
    rw [runRows_trace_exact (sheet.tail.getD hidx []) g
      (sheet.tail.drop (hidx + 1)).length t (sheet.tail.drop (hidx + 1)) 0
      ⟨db, 0, [], (if true then [1 / 10] else []) ++ (if true then [2 / 10] else [])⟩]
    rw [hR, hC]
    simp [List.enum]
  have hshape : ∃ mids,
      (importFromExcel wb g true t db).trace = 1 / 10 :: 2 / 10 :: (mids ++ [1]) ∧
      ∀ q ∈ mids, ∃ i, i < (dataRowsOf wb).length ∧
        q = 2 / 10 + 7 / 10 * ((i : ℚ) / (((dataRowsOf wb).length : ℚ))) := by
    rw [importFromExcel_sheet wb g true t db sheet hS,
      importSheet_success sheet g true t db hidx mcol hH hm]
    obtain ⟨mids, hmids, hbound⟩ := runRows_trace_shape (sheet.tail.getD hidx []) g true
      (sheet.tail.drop (hidx + 1)).length t (sheet.tail.drop (hidx + 1)) 0
      ⟨db, 0, [], (if true then [1 / 10] else []) ++ (if true then [2 / 10] else [])⟩
      (by omega)
    refine ⟨mids, ?_, ?_⟩
    · show (runRows _ g true _ t _ 0 _).trace ++ (if true then [1] else []) = _
      rw [hmids]
      simp
    · intro q hq
      obtain ⟨i, hi, hiq⟩ := hbound q hq
      rw [hR]
      exact ⟨i, hi, hiq⟩
  obtain ⟨mids, htr2, hbound⟩ := hshape
  obtain ⟨m1, m2, m3, m4, m5⟩ := importFromExcel_mask wb g t db
  refine ⟨htr, ?_, importFromExcel_trace_noSink wb g t db, m1, m2, m3, m4, m5⟩
  intro q hq
  rw [htr2] at hq
  rcases List.mem_cons.mp hq with h1 | hq2
  · rw [h1]
    norm_num
  rcases List.mem_cons.mp hq2 with h2 | hq3
  · rw [h2]
    norm_num
  rcases List.mem_append.mp hq3 with h3 | h4
  · obtain ⟨i, hi, hiq⟩ := hbound q h3
    rw [hiq]
    exact mid_range i _ hi
  · rw [List.mem_singleton.mp h4]
    norm_num

/-- C8 witness: the amended progress contract applied at `wbMixed` with a
sink attached. -/
theorem c8_progress_amended_witness :
    structuralOk wbMixed = true ∧
    ((importFromExcel wbMixed none true 0 emptyDB).trace =
      1 / 10 :: 2 / 10 ::
        ((((dataRowsOf wbMixed).enum.filter
            (fun p => (rowOp (colsOf wbMixed) none p.2).isSome && (p.1 % 10 == 0))).map
            (fun p => 2 / 10 + 7 / 10 *
              ((p.1 : ℚ) / (((dataRowsOf wbMixed).length : ℚ))))) ++ [1]) ∧
    (∀ q ∈ (importFromExcel wbMixed none true 0 emptyDB).trace, 0 ≤ q ∧ q ≤ 1) ∧
    (importFromExcel wbMixed none false 0 emptyDB).trace = [] ∧
    (importFromExcel wbMixed none false 0 emptyDB).ok =
      (importFromExcel wbMixed none true 0 emptyDB).ok ∧
    (importFromExcel wbMixed none false 0 emptyDB).message =
      (importFromExcel wbMixed none true 0 emptyDB).message ∧
    (importFromExcel wbMixed none false 0 emptyDB).count =
      (importFromExcel wbMixed none true 0 emptyDB).count ∧
    (importFromExcel wbMixed none false 0 emptyDB).db =
      (importFromExcel wbMixed none true 0 emptyDB).db ∧
    (importFromExcel wbMixed none false 0 emptyDB).errors =
      (importFromExcel wbMixed none true 0 emptyDB).errors) :=
  ⟨by decide, c8_progress_amended wbMixed none 0 emptyDB (by decide)⟩


end STrack
